import Mathlib

/-!
# Verification of the picoforge CTAPHID transport and CTAP2 client

This file embeds, in Lean, the pure computational core of the
`src/device/fido` module of picoforge (a host-side manager for
pico-fido security tokens): the CTAPHID framing layer, the response
reassembly loop, the canonical CBOR request builders for the
ClientPin / CredentialManagement / authenticatorConfig commands, and
the GetInfo parsers.  Stateful HID traffic is modelled by explicit
traces of timed 64-byte reports; the external cryptographic
primitives (`ring`'s SHA-256 and HMAC, the `aes`/`cbc` crates' AES
block cipher) are abstracted as a record of functions, while the CBC
chaining mode, message layouts and truncations that the client itself
performs are modelled concretely.  Bytes are `Nat` values below 256;
wrapping machine arithmetic is written out with explicit `% 2 ^ w`.

Theorems at the end of the file settle the frozen claims about this
code, one theorem per claim.
-/

namespace PicoForge

/-! ## Byte-level utilities -/

/-- Big-endian byte decomposition of a 32-bit value, as produced by
Rust's `u32::to_be_bytes` (each byte reduced mod 256). -/
def beBytes32 (x : Nat) : List Nat :=
  [x >>> 24 % 256, x >>> 16 % 256, x >>> 8 % 256, x % 256]

/-- Big-endian reading of the first four bytes of a report, as done by
`u32::from_be_bytes([buf[0], buf[1], buf[2], buf[3]])`. -/
def beU32 (l : List Nat) : Nat :=
  (l.getD 0 0) * 16777216 + (l.getD 1 0) * 65536 + (l.getD 2 0) * 256 + l.getD 3 0

/-- Big-endian reading of two bytes, as done by `u16::from_be_bytes`. -/
def beU16 (hi lo : Nat) : Nat := hi * 256 + lo

/-- Pad a byte list with trailing zeros to length `n` (Rust buffers are
zero-initialised arrays that are only partially overwritten). -/
def padTo (n : Nat) (l : List Nat) : List Nat :=
  l ++ List.replicate (n - l.length) 0

/-! ## CTAPHID transmit path (`HidTransport::write_cbor_request`)

The source builds 65-byte reports whose first byte is the constant HID
report id 0; that constant prefix never reaches the wire-level frame,
so frames are modelled as the 64 payload bytes of each report. -/

/-- The 64-byte initialization frame built by `write_cbor_request`:
`[CID(4) | CMD(1) | LEN(2, big-endian) | payload prefix]`, zero-padded.
The command byte is stored as given (reduced to a byte); the source
does not set its high bit. -/
def initFrame (cid cmd : Nat) (payload : List Nat) : List Nat :=
  padTo 64 (beBytes32 cid ++
    [cmd % 256, payload.length >>> 8 % 256, payload.length % 256] ++
    payload.take 57)

/-- A 64-byte continuation frame: `[CID(4) | SEQ(1) | payload chunk]`,
zero-padded.  The sequence byte is `0x7F & sequence` computed on the
`u8` counter, i.e. `0x7F &&& (seq % 256)`. -/
def contFrame (cid seq : Nat) (chunk : List Nat) : List Nat :=
  padTo 64 (beBytes32 cid ++ [0x7F &&& seq % 256] ++ chunk)

/-- The continuation-packet loop of `write_cbor_request`: while bytes
remain, emit a frame carrying the next (at most 59-byte) chunk and
increment the sequence counter. -/
def writeContFrames (cid seq : Nat) (rest : List Nat) : List (List Nat) :=
  if rest = [] then []
  else contFrame cid seq (rest.take 59) :: writeContFrames cid (seq + 1) (rest.drop 59)
termination_by rest.length
decreasing_by
  simp only [List.length_drop]
  have : rest.length ≠ 0 := by
    simpa [List.length_eq_zero] using (by assumption : ¬rest = [])
  omega

/-- `HidTransport::write_cbor_request`: one initialization frame
carrying the first `min L 57` payload bytes, then continuation frames
for the remainder, 59 bytes at a time, sequence starting at 0. -/
def writeCborFrames (cid cmd : Nat) (payload : List Nat) : List (List Nat) :=
  initFrame cid cmd payload :: writeContFrames cid 0 (payload.drop 57)

/-- The payload bytes carried by a list of continuation frames for a
message with `rem` bytes still outstanding: each frame contributes the
`min rem 59` bytes after its 5-byte header. -/
def carriedCont : List (List Nat) → Nat → List Nat
  | [], _ => []
  | f :: rest, rem =>
      (f.drop 5).take (min rem 59) ++ carriedCont rest (rem - min rem 59)

/-- The payload bytes carried by a full frame sequence for a message of
`len` bytes: `min len 57` bytes after the 7-byte initialization header,
then the continuation frames' contribution. -/
def carriedBytes : List (List Nat) → Nat → List Nat
  | [], _ => []
  | f :: rest, len =>
      (f.drop 7).take (min len 57) ++ carriedCont rest (len - min len 57)

/-! ## Canonical CBOR encoding (`serde_cbor_2::to_vec` on `Value`)

The client serialises requests with `serde_cbor_2`, which emits
definite-length items with minimally-sized length headers, and
iterates `BTreeMap`s in ascending key order.  Only the `Value`
constructors the client uses are modelled.  Map entries are kept as an
association list; everywhere the source builds a `BTreeMap` the
embedding writes the entries in the map's ascending iteration order. -/

/-- The subset of `serde_cbor_2::Value` used by the client.  Text
carries the string; maps carry their entries in `BTreeMap` (ascending
key) iteration order, with arbitrary `Value` keys as in the source. -/
inductive Value where
  | int (i : Int)
  | bytes (b : List Nat)
  | text (s : String)
  | bool (b : Bool)
  | arr (l : List Value)
  | map (entries : List (Value × Value))

/-- CBOR head byte(s) for major type `major` and argument `n`
(minimal-width definite-length encoding). -/
def cborHead (major n : Nat) : List Nat :=
  if n < 24 then [major <<< 5 ||| n]
  else if n < 256 then [major <<< 5 ||| 24, n]
  else if n < 65536 then [major <<< 5 ||| 25, n >>> 8 % 256, n % 256]
  else if n < 4294967296 then
    [major <<< 5 ||| 26, n >>> 24 % 256, n >>> 16 % 256, n >>> 8 % 256, n % 256]
  else
    [major <<< 5 ||| 27, n >>> 56 % 256, n >>> 48 % 256, n >>> 40 % 256,
      n >>> 32 % 256, n >>> 24 % 256, n >>> 16 % 256, n >>> 8 % 256, n % 256]

/-- CBOR encoding of an integer: major type 0 for `i ≥ 0`, major
type 1 with argument `-1 - i` otherwise. -/
def cborInt (i : Int) : List Nat :=
  if 0 ≤ i then cborHead 0 i.toNat else cborHead 1 (-1 - i).toNat

/-- UTF-8 bytes of a string. -/
def utf8Bytes (s : String) : List Nat :=
  s.toUTF8.toList.map (fun b => b.toNat)

mutual

/-- `serde_cbor_2::to_vec` on the modelled `Value` subset. -/
def encValue : Value → List Nat
  | .int i => cborInt i
  | .bytes b => cborHead 2 b.length ++ b
  | .text s => cborHead 3 (utf8Bytes s).length ++ utf8Bytes s
  | .bool b => if b then [0xF5] else [0xF4]
  | .arr l => cborHead 4 l.length ++ encList l
  | .map es => cborHead 5 es.length ++ encEntries es

/-- Concatenated encodings of array elements. -/
def encList : List Value → List Nat
  | [] => []
  | v :: rest => encValue v ++ encList rest

/-- Concatenated `key ++ value` encodings of map entries. -/
def encEntries : List (Value × Value) → List Nat
  | [] => []
  | (k, v) :: rest => encValue k ++ encValue v ++ encEntries rest

end

/-- Equality of map keys.  Every map the client builds or parses keys
its entries by integers or text (never by arrays or maps), so equality
on the scalar constructors is exactly the `BTreeMap` key equality. -/
def keyEq : Value → Value → Bool
  | .int a, .int b => a == b
  | .bytes a, .bytes b => a == b
  | .text a, .text b => a == b
  | .bool a, .bool b => a == b
  | _, _ => false

/-- `BTreeMap::get` on the modelled map entries: the value of the first
entry whose key equals `k` (keys are distinct in every map the client
builds or reads, so this is exactly the `BTreeMap` lookup). -/
def lookupV (entries : List (Value × Value)) (k : Value) : Option Value :=
  match entries with
  | [] => none
  | (k', v) :: rest => if keyEq k' k then some v else lookupV rest k

/-! ## Errors (`PFError`)

Only `PFError`'s constructors appear at the use sites in
`src/device/fido`; the variants used there are `NoDevice`,
`Device(String)` and `Io(String)`.  `to_string` on an error yields a
message containing the stored string, which is what the
`contains("0x2E")`-style checks in the source inspect. -/

inductive PFError where
  | NoDevice
  | Device (msg : String)
  | Io (msg : String)
deriving DecidableEq, Repr

/-- Is `needle` a contiguous sublist of `hay`? -/
def isInfixList (needle hay : List Char) : Bool :=
  needle.isPrefixOf hay ||
    match hay with
    | [] => false
    | _ :: rest => isInfixList needle rest

/-- Substring test (`str::contains`). -/
def strContains (hay needle : String) : Bool :=
  isInfixList needle.toList hay.toList

/-- Uppercase hex digit for a nibble. -/
def hexDigit (n : Nat) : Char :=
  if n < 10 then Char.ofNat (48 + n) else Char.ofNat (55 + n)

/-- Rust `format!("{:02X}", byte)`: two uppercase hex digits. -/
def hex2X (n : Nat) : String :=
  String.mk [hexDigit (n / 16 % 16), hexDigit (n % 16)]

/-- The message of the `PFError::Device` raised by `read_cbor_response`
on a non-zero CTAP status byte. -/
def statusMsg (code : Nat) : String :=
  "FIDO Operation Failed with Status: 0x" ++ hex2X code

/-- Does `e.to_string()` contain the substring "0x2E"?  (`to_string`
on `Device`/`Io` errors surrounds the stored message, preserving
containment; `NoDevice` has a fixed message without hex digits.) -/
def errContains2E (e : PFError) : Bool :=
  match e with
  | .NoDevice => false
  | .Device m => strContains m ("0x2E")
  | .Io m => strContains m ("0x2E")

/-! ## Protocol constants (`src/device/fido/constants.rs`) -/

namespace CtapCommand

def GetInfo : Nat := 0x04

def ClientPin : Nat := 0x06

def CredentialMgmt : Nat := 0x0A

def Config : Nat := 0x0D

end CtapCommand

namespace ClientPinSubCommand

def GetKeyAgreement : Nat := 0x02

def SetPin : Nat := 0x03

def ChangePin : Nat := 0x04

def GetPinToken : Nat := 0x05

/-- In `constants.rs` this variant of `ClientPinSubCommand` is declared
with value `0x08` (not the CTAP 2.1 value 0x09). -/
def GetPinUvAuthTokenUsingPinWithPermissions : Nat := 0x08

end ClientPinSubCommand

namespace ClientPinParam

def PinUvAuthProtocol : Nat := 0x01

def SubCommand : Nat := 0x02

def KeyAgreement : Nat := 0x03

def PinUvAuthParam : Nat := 0x04

def NewPinEnc : Nat := 0x05

def PinHashEnc : Nat := 0x06

def Permissions : Nat := 0x09

def PermissionsRpId : Nat := 0x0A

end ClientPinParam

namespace ConfigParam

def SubCommand : Nat := 0x01

def SubCommandParams : Nat := 0x02

def PinUvAuthProtocol : Nat := 0x03

def PinUvAuthParam : Nat := 0x04

end ConfigParam

namespace ConfigSubCommand

def SetMinPinLength : Nat := 0x03

def VendorPrototype : Nat := 0xFF

end ConfigSubCommand

/-- The `VendorConfigCommand` enum of `constants.rs`: a field-less Rust
enum declared without explicit discriminants, in this declaration
order. -/
inductive VendorConfigCommand where
  | AuthEncryptionEnable
  | AuthEncryptionDisable
  | EnterpriseAttestationUpload
  | PinComplexityPolicy
  | PhysicalVidPid
  | PhysicalLedBrightness
  | PhysicalLedGpio
  | PhysicalOptions
deriving DecidableEq, Repr

/-- `VendorConfigCommand::to_u64`: the published 64-bit vendor command
identifiers. -/
def VendorConfigCommand.toU64 : VendorConfigCommand → Nat
  | .AuthEncryptionEnable => 0x03e43f56b34285e2
  | .AuthEncryptionDisable => 0x1831a40f04a25ed9
  | .EnterpriseAttestationUpload => 0x66f2a674c29a8dcf
  | .PinComplexityPolicy => 0x6c07d70fe96c3897
  | .PhysicalVidPid => 0x6fcb19b0cbe3acfa
  | .PhysicalLedBrightness => 0x76a85945985d02fd
  | .PhysicalLedGpio => 0x7b392a394de9f948
  | .PhysicalOptions => 0x269f3b09eceb805f

/-- Rust's `vendor_cmd as i128` on the field-less `VendorConfigCommand`
enum: the declaration-order discriminant (0 for the first variant, 7
for the last), since the enum declares no explicit discriminants. -/
def VendorConfigCommand.disc : VendorConfigCommand → Nat
  | .AuthEncryptionEnable => 0
  | .AuthEncryptionDisable => 1
  | .EnterpriseAttestationUpload => 2
  | .PinComplexityPolicy => 3
  | .PhysicalVidPid => 4
  | .PhysicalLedBrightness => 5
  | .PhysicalLedGpio => 6
  | .PhysicalOptions => 7

/-- Modelled from the spec: the `CredentialMgmtSubCommand` enum is used
by `hid.rs` but not declared in any source file under `src/`; the spec
(§4.6) gives the subcommand byte 0x01 for getCredsMetadata. -/
def credMgmtGetCredsMetadata : Nat := 0x01

/-- Modelled from the spec: enumerateRpsBegin subcommand byte 0x02
(spec §4.6); the declaring enum is not under `src/`. -/
def credMgmtEnumerateRpsBegin : Nat := 0x02

/-- Modelled from the spec: enumerateRpsGetNextRp subcommand byte 0x03
(spec §4.6); the declaring enum is not under `src/`. -/
def credMgmtEnumerateRpsGetNextRp : Nat := 0x03

/-- Modelled from the spec: enumerateCredentialsBegin subcommand byte
0x04 (spec §4.6); the declaring enum is not under `src/`. -/
def credMgmtEnumerateCredentialsBegin : Nat := 0x04

/-- Modelled from the spec: deleteCredential subcommand byte 0x06
(spec §4.6); the declaring enum is not under `src/`. -/
def credMgmtDeleteCredential : Nat := 0x06

/-- Modelled from the spec: `CredentialMgmtParam::SubCommand`, the key
of the subcommand entry in the outer CredentialManagement map, which
the spec (§4.6) writes as `{ 1:0x02, 3:1, 4:pinUvAuthParam }`; the
declaring enum is not under `src/`. -/
def credMgmtParamSubCommand : Nat := 0x01

/-- Modelled from the spec: `CredentialMgmtParam::SubCommandParams`,
key 2 of the outer CredentialManagement map (spec §4.6). -/
def credMgmtParamSubCommandParams : Nat := 0x02

/-- Modelled from the spec: `CredentialMgmtParam::PinUvAuthProtocol`,
key 3 of the outer CredentialManagement map (spec §4.6). -/
def credMgmtParamPinUvAuthProtocol : Nat := 0x03

/-- Modelled from the spec: `CredentialMgmtParam::PinUvAuthParam`,
key 4 of the outer CredentialManagement map (spec §4.6). -/
def credMgmtParamPinUvAuthParam : Nat := 0x04

/-- Modelled from the spec: `CredentialMgmtResponseParam::Rp`, the key
of the `rp` entry of an enumerate-RPs response map (spec §3 and §4.6
name the field; its CTAP 2.1 key is 0x03).  The declaring enum is not
under `src/`; no claim depends on the numeric value. -/
def credMgmtRespRp : Nat := 0x03

/-- Modelled from the spec: `CredentialMgmtResponseParam::RpIdHash`
(CTAP 2.1 key 0x04); the declaring enum is not under `src/`. -/
def credMgmtRespRpIdHash : Nat := 0x04

/-- Modelled from the spec: `CredentialMgmtResponseParam::TotalRps`
(CTAP 2.1 key 0x05); the declaring enum is not under `src/`. -/
def credMgmtRespTotalRps : Nat := 0x05

/-! ## Cryptographic primitives

The client calls `ring` for SHA-256 and HMAC-SHA-256 and the
`aes`/`cbc` crates for AES-256 block encryption.  Those libraries are
external collaborators; they are abstracted as an arbitrary record of
byte-level functions.  The CBC chaining, zero IV, padding, message
concatenations and truncations are the client's own responsibility and
are modelled concretely below. -/

/-- The external primitives: `sha256 data`, `hmacSha256 key data`, and
`aesEncBlock key block` (one 16-byte AES-256 ECB block encryption,
the core the `cbc::Encryptor` chains). -/
structure CryptoPrims where
  sha256 : List Nat → List Nat
  hmacSha256 : List Nat → List Nat → List Nat
  aesEncBlock : List Nat → List Nat → List Nat

/-- A concrete `CryptoPrims` instance for evaluating the builders on
explicit inputs (constant hash and HMAC, identity block cipher); the
theorems themselves hold for every instance. -/
def constantHmacCrypto : CryptoPrims where
  sha256 := fun _ => List.replicate 32 0
  hmacSha256 := fun _ _ => List.replicate 32 0
  aesEncBlock := fun _ b => b

/-- Byte-wise XOR of two equal-length byte strings. -/
def xorBytes (a b : List Nat) : List Nat :=
  List.zipWith (fun x y => x ^^^ y) a b

/-- CBC-mode chaining as performed by `cbc::Encryptor`: each plaintext
block is XORed with the previous ciphertext block (initially the IV)
before block encryption. -/
def cbcEncryptBlocks (enc : List Nat → List Nat → List Nat) (key : List Nat) :
    List Nat → List (List Nat) → List (List Nat)
  | _, [] => []
  | prev, b :: rest =>
      let c := enc key (xorBytes prev b)
      c :: cbcEncryptBlocks enc key c rest

/-- `chunks_exact(16)`: split into consecutive 16-byte blocks,
discarding any short trailing block. -/
def chunks16 (l : List Nat) : List (List Nat) :=
  if l.length < 16 then []
  else l.take 16 :: chunks16 (l.drop 16)
termination_by l.length
decreasing_by
  simp only [List.length_drop]
  omega

/-! ## ClientPin request builders (`hid.rs`) -/

/-- `HidTransport::encode_cose_key`: the hand-rolled COSE EC2 public
key `{1:2, 3:-7, -1:1, -2:x, -3:y}`, emitted as a five-entry map in
exactly that order. -/
def encodeCoseKey (x y : List Nat) : List Nat :=
  [0xA5] ++ cborInt 1 ++ cborInt 2 ++ cborInt 3 ++ cborInt (-7) ++
    cborInt (-1) ++ cborInt 1 ++ cborInt (-2) ++ encValue (.bytes x) ++
    cborInt (-3) ++ encValue (.bytes y)

/-- `HidTransport::encode_client_pin_params`: the hand-rolled ClientPin
parameter map `{1:1, 2:subCmd, 3:coseKey, 6:pinHashEnc, [9:perm],
[10:rpId]}` with a `0xA0 | count` header. -/
def encodeClientPinParams (subCmd : Nat) (coseKeyBytes pinHashEnc : List Nat)
    (permissions : Option Nat) (rpId : Option String) : List Nat :=
  let count := 4 + (if permissions.isSome then 1 else 0) +
    (if rpId.isSome then 1 else 0)
  [0xA0 ||| count % 256] ++
    cborInt ClientPinParam.PinUvAuthProtocol ++ cborInt 1 ++
    cborInt ClientPinParam.SubCommand ++ cborInt subCmd ++
    cborInt ClientPinParam.KeyAgreement ++ coseKeyBytes ++
    cborInt ClientPinParam.PinHashEnc ++ encValue (.bytes pinHashEnc) ++
    (match permissions with
      | some p => cborInt ClientPinParam.Permissions ++ cborInt p
      | none => []) ++
    (match rpId with
      | some rp => cborInt ClientPinParam.PermissionsRpId ++ encValue (.text rp)
      | none => [])

/-- The CTAP payload `get_pin_token_with_permission` sends: the
ClientPin command byte followed by the subcommand-0x08 parameter map
with the permission bits and optional relying-party id. -/
def getPinTokenWithPermissionRequest (coseKeyBytes pinHashEnc : List Nat)
    (permissionBits : Nat) (rpId : Option String) : List Nat :=
  [CtapCommand.ClientPin] ++
    encodeClientPinParams ClientPinSubCommand.GetPinUvAuthTokenUsingPinWithPermissions
      coseKeyBytes pinHashEnc (some permissionBits) rpId

/-- `HidTransport::change_pin` up to the point of transmission: PIN
length validation, `pinHashEnc`/`newPinEnc` encryption, the
pinUvAuthParam HMAC, and the hand-rolled six-entry ClientPin map.  The
ECDH key agreement performed over the wire is abstracted by passing
the derived 32-byte shared secret and the platform public key
coordinates; the PINs are passed as their UTF-8 bytes
(`str::len`/`str::as_bytes` operate on UTF-8 bytes).  Returns the CTAP
payload handed to `send_cbor`, or the error raised before anything is
sent. -/
def changePinPayload (C : CryptoPrims) (sharedSecret platformX platformY : List Nat)
    (currentPin newPin : List Nat) : Except PFError (List Nat) :=
  if newPin.length < 4 then
    .error (.Device ("PIN must be at least 4 characters"))
  else if newPin.length > 63 then
    .error (.Device ("PIN must be less than 64 characters"))
  else
    let pinHash16 := (C.sha256 currentPin).take 16
    let zeroIV := List.replicate 16 0
    let pinHashEnc := (cbcEncryptBlocks C.aesEncBlock sharedSecret zeroIV [pinHash16]).flatten
    let paddedNewPin := newPin ++ List.replicate (64 - newPin.length) 0
    let newPinEnc :=
      (cbcEncryptBlocks C.aesEncBlock sharedSecret zeroIV (chunks16 paddedNewPin)).flatten
    let hmacMsg := newPinEnc ++ pinHashEnc
    let pinUvAuthParam := (C.hmacSha256 sharedSecret hmacMsg).take 16
    let coseKeyBytes := encodeCoseKey platformX platformY
    let payloadCbor :=
      [0xA6] ++
        cborInt ClientPinParam.PinUvAuthProtocol ++ cborInt 1 ++
        cborInt ClientPinParam.SubCommand ++ cborInt ClientPinSubCommand.ChangePin ++
        cborInt ClientPinParam.KeyAgreement ++ coseKeyBytes ++
        cborInt ClientPinParam.PinUvAuthParam ++ encValue (.bytes pinUvAuthParam) ++
        cborInt ClientPinParam.NewPinEnc ++ encValue (.bytes newPinEnc) ++
        cborInt ClientPinParam.PinHashEnc ++ encValue (.bytes pinHashEnc)
    .ok ([CtapCommand.ClientPin] ++ payloadCbor)

/-! ## Signing helpers and vendor configuration (`hid.rs`) -/

/-- `HidTransport::sign_config_command`: the standard CTAP 2.1
authenticatorConfig signature input
`0xFF×32 || 0x0D || subCommand || subCommandParams`, HMAC'd with the
pinUvAuthToken and truncated to 16 bytes. -/
def signConfigCommand (C : CryptoPrims) (pinToken : List Nat) (subCmd : Nat)
    (subParamsBytes : List Nat) : List Nat :=
  let message := List.replicate 32 0xFF ++ [CtapCommand.Config, subCmd] ++ subParamsBytes
  (C.hmacSha256 pinToken message).take 16

/-- `HidTransport::sign_credential_mgmt_command`: the firmware-specific
CredentialManagement signature input.  The message starts as the bare
subcommand byte; the CBOR subcommand params are appended only when
present and the subcommand is neither getCredsMetadata nor
enumerateRpsBegin.  No 0xFF padding and no command byte. -/
def signCredentialMgmtCommand (C : CryptoPrims) (pinToken : List Nat) (subCmd : Nat)
    (subParamsBytes : Option (List Nat)) : List Nat :=
  let message :=
    match subParamsBytes with
    | some params =>
        if subCmd ≠ credMgmtGetCredsMetadata ∧ subCmd ≠ credMgmtEnumerateRpsBegin then
          [subCmd] ++ params
        else [subCmd]
    | none => [subCmd]
  (C.hmacSha256 pinToken message).take 16

/-- The claim-side signing rule, stated as the spec words it: the
signed message is the subcommand byte alone for getCredsMetadata
(0x01) and enumerateRpsBegin (0x02), and the subcommand byte followed
by the CBOR encoding of subCommandParams for every other subcommand. -/
def credMgmtSignedMessageSpec (subCmd : Nat) (subParamsBytes : List Nat) : List Nat :=
  if subCmd = 0x01 ∨ subCmd = 0x02 then [subCmd] else subCmd :: subParamsBytes

/-- The inner `subCommandParams` map of `send_vendor_config`: key 1
holds `Value::Integer(vendor_cmd as i128)` and the parameter goes to
key 2 (bytes), 3 (integer) or 4 (text); any other parameter type is
rejected. -/
def vendorSubParams (vendorCmd : VendorConfigCommand) (param : Value) :
    Except PFError (List (Value × Value)) :=
  match param with
  | .bytes _ => .ok [(.int 0x01, .int (vendorCmd.disc : Int)), (.int 0x02, param)]
  | .int _ => .ok [(.int 0x01, .int (vendorCmd.disc : Int)), (.int 0x03, param)]
  | .text _ => .ok [(.int 0x01, .int (vendorCmd.disc : Int)), (.int 0x04, param)]
  | _ => .error (.Io ("Unsupported parameter type"))

/-- `HidTransport::send_vendor_config` up to transmission: builds the
inner vendor map, signs it with the VendorPrototype (0xFF)
authenticatorConfig rule, and wraps it in the four-entry
authenticatorConfig map `{1:0xFF, 2:subParams, 3:1, 4:pinUvAuthParam}`
behind the Config (0x0D) command byte. -/
def sendVendorConfigPayload (C : CryptoPrims) (pinToken : List Nat)
    (vendorCmd : VendorConfigCommand) (param : Value) : Except PFError (List Nat) :=
  match vendorSubParams vendorCmd param with
  | .error e => .error e
  | .ok entries =>
      let subParams := Value.map entries
      let subParamsBytes := encValue subParams
      let pinAuth := signConfigCommand C pinToken ConfigSubCommand.VendorPrototype subParamsBytes
      let configMap := Value.map
        [((.int (ConfigParam.SubCommand : Int)), .int (ConfigSubCommand.VendorPrototype : Int)),
          ((.int (ConfigParam.SubCommandParams : Int)), subParams),
          ((.int (ConfigParam.PinUvAuthProtocol : Int)), .int 1),
          ((.int (ConfigParam.PinUvAuthParam : Int)), .bytes pinAuth)]
      .ok ([CtapCommand.Config] ++ encValue configMap)

/-! ## Response reassembly (`HidTransport::read_cbor_response`)

The blocking HID reads are modelled by a trace: the list of 64-byte
buffers that successive `hidapi::read_timeout` calls hand back, each
tagged with the elapsed milliseconds (since the start of the read) at
which that call returns.  A timed-out `read_timeout` returns a
zero-filled buffer, which appears in the trace like any other report
(its channel field 0 never matches a negotiated channel); a failing
read is modelled by the trace running out, which the source maps to
`PFError::Io`.  The total-deadline check `start_time.elapsed() >
timeout_duration` compares the elapsed time at the top of the loop —
the timestamp of the previously processed buffer — against the fixed
5000 ms duration. -/

/-- One HID report as obtained by the read loop: the elapsed time (ms
since the read started) at which the read returned, and the 64 buffer
bytes. -/
structure Packet where
  time : Nat
  data : List Nat
deriving DecidableEq, Repr

/-- The first-packet loop of `read_cbor_response`: checks the fixed
5-second total deadline (measured from the start of the read and never
reset), then reads; buffers on a different channel and keep-alive
(0xBB) buffers are skipped, anything else breaks the loop.  Returns
the breaking buffer and the unread remainder of the trace. -/
def readFirstLoop (cid now : Nat) : List Packet → Except PFError (List Nat × List Packet)
  | [] =>
      if 5000 < now then
        .error (.Device ("Timeout waiting for device response (Keepalive limit exceeded)"))
      else .error (.Io ("Timeout reading response packet"))
  | p :: rest =>
      if 5000 < now then
        .error (.Device ("Timeout waiting for device response (Keepalive limit exceeded)"))
      else if beU32 p.data ≠ cid then readFirstLoop cid p.time rest
      else if p.data.getD 4 0 = 0xBB then readFirstLoop cid p.time rest
      else .ok (p.data, rest)

/-- Modelled from the spec: the first-packet loop as the spec's §4.1
and §9 describe it, with the total deadline reset by each keep-alive —
the read times out only when more than 5 s elapse since the most
recent keep-alive (initially: since the start of the read).  This is
the comparison point for claim C2; the source (`readFirstLoop` above)
never resets the deadline. -/
def readFirstLoopSpecReset (cid now deadline : Nat) :
    List Packet → Except PFError (List Nat × List Packet)
  | [] =>
      if deadline < now then
        .error (.Device ("Timeout waiting for device response (Keepalive limit exceeded)"))
      else .error (.Io ("Timeout reading response packet"))
  | p :: rest =>
      if deadline < now then
        .error (.Device ("Timeout waiting for device response (Keepalive limit exceeded)"))
      else if beU32 p.data ≠ cid then readFirstLoopSpecReset cid p.time deadline rest
      else if p.data.getD 4 0 = 0xBB then
        readFirstLoopSpecReset cid p.time (p.time + 5000) rest
      else .ok (p.data, rest)

/-- Step 3 of `read_cbor_response`: the payload must be non-empty, its
first byte is the CTAP status (0 on success) and is stripped from the
returned payload. -/
def finishResponse (acc : List Nat) : Except PFError (List Nat) :=
  match acc with
  | [] => .error (.Device ("Empty response"))
  | status :: rest =>
      if status ≠ 0 then .error (.Device (statusMsg status)) else .ok rest

/-- The continuation loop of `read_cbor_response`: while fewer than
`expectedLen` bytes have been collected, read a buffer; buffers on a
different channel are skipped, an on-channel buffer whose byte 4
differs from the expected sequence number fails the read, otherwise
the next `min (expectedLen - readLen) 59` bytes are appended and the
`u8` sequence counter advances. -/
def readContLoop (cid expectedLen : Nat) (acc : List Nat) (readLen lastSeq : Nat) :
    List Packet → Except PFError (List Nat)
  | [] =>
      if readLen < expectedLen then .error (.Io ("Timeout reading continuation packet"))
      else finishResponse acc
  | p :: rest =>
      if readLen < expectedLen then
        if beU32 p.data ≠ cid then readContLoop cid expectedLen acc readLen lastSeq rest
        else if p.data.getD 4 0 ≠ lastSeq % 256 then .error (.Device ("Sequence mismatch"))
        else
          let inPkt := min (expectedLen - readLen) 59
          readContLoop cid expectedLen (acc ++ (p.data.drop 5).take inPkt)
            (readLen + inPkt) (lastSeq + 1) rest
      else finishResponse acc

/-- Processing of the first data buffer: a 0xBF buffer is a CTAPHID
error frame, a buffer whose command byte is not the echoed command is
rejected, otherwise the big-endian length and the first
`min expectedLen 57` payload bytes are read and the continuation loop
runs. -/
def readAfterFirst (cid cmd : Nat) (buf : List Nat) (rest : List Packet) :
    Except PFError (List Nat) :=
  if buf.getD 4 0 = 0xBF then
    .error (.Device ("Device returned CTAP Error: 0x" ++ hex2X (buf.getD 5 0)))
  else if buf.getD 4 0 = cmd then
    let expectedLen := beU16 (buf.getD 5 0) (buf.getD 6 0)
    let inPkt := min expectedLen 57
    readContLoop cid expectedLen ((buf.drop 7).take inPkt) inPkt 0 rest
  else
    .error (.Device ("Unexpected command response: 0x" ++ hex2X (buf.getD 4 0) ++
      " (Expected 0x" ++ hex2X cmd ++ ")"))

/-- `HidTransport::read_cbor_response` over a trace of reads. -/
def readCborResponse (cid cmd : Nat) (trace : List Packet) : Except PFError (List Nat) :=
  match readFirstLoop cid 0 trace with
  | .error e => .error e
  | .ok (buf, rest) => readAfterFirst cid cmd buf rest

/-- Modelled from the spec: `read_cbor_response` with the
deadline-resetting first-packet loop the spec describes (claim C2's
comparison point). -/
def readCborResponseSpecReset (cid cmd : Nat) (trace : List Packet) :
    Except PFError (List Nat) :=
  match readFirstLoopSpecReset cid 0 5000 trace with
  | .error e => .error e
  | .ok (buf, rest) => readAfterFirst cid cmd buf rest

/-! ## Credential-management enumeration
(`HidTransport::credential_management_enumerate_rps`)

The enumeration is modelled from the point where the
CredentialManagement-permission pinUvAuthToken has been obtained (its
acquisition is a separate ClientPin exchange).  The device is modelled
by a script: the result of `send_cbor` followed by `from_slice` for
the EnumerateRpsBegin request, then one entry per
EnumerateRpsGetNextRp request the client issues.  The embedding
returns the list of CTAP request payloads issued together with the
result. -/

/-- `EnumerateRpResponse` of `hid.rs` (`total_rps` is Rust `usize`). -/
structure EnumerateRpResponse where
  rp : Value
  rpIdHash : List Nat
  totalRps : Option Nat

/-- Rust `as usize` on an `i128`: truncation to 64 bits (two's
complement). -/
def usizeOfI128 (t : Int) : Nat := (t % (2 ^ 64 : Int)).toNat

/-- The EnumerateRpsBegin (subcommand 0x02) CTAP payload: signed with
the bare-subcommand rule, map `{1:2, 3:1, 4:pinUvAuthParam}` in
`BTreeMap` ascending-key order. -/
def enumerateRpsBeginRequest (C : CryptoPrims) (pinToken : List Nat) : List Nat :=
  let pinAuth := signCredentialMgmtCommand C pinToken credMgmtEnumerateRpsBegin none
  [CtapCommand.CredentialMgmt] ++ encValue (.map
    [((.int (credMgmtParamSubCommand : Int)), .int (credMgmtEnumerateRpsBegin : Int)),
      ((.int (credMgmtParamPinUvAuthProtocol : Int)), .int 1),
      ((.int (credMgmtParamPinUvAuthParam : Int)), .bytes pinAuth)])

/-- The EnumerateRpsGetNextRp (subcommand 0x03) CTAP payload: the
single-entry map `{1:3}`, unauthenticated. -/
def enumerateRpsNextRequest : List Nat :=
  [CtapCommand.CredentialMgmt] ++ encValue (.map
    [((.int (credMgmtParamSubCommand : Int)), .int (credMgmtEnumerateRpsGetNextRp : Int))])

/-- The GetNextRp loop: while fewer than `target` records have
accumulated, issue a subcommand-0x03 request and consume the next
scripted reply.  A device status containing "0x2E" ends the
enumeration with the records collected so far; a well-formed map reply
appends a record; a non-map `Ok` reply appends nothing (the source's
`if let Value::Map` silently skips it). -/
def enumRpsNextLoop (target : Nat) (total : Option Nat) (acc : List EnumerateRpResponse) :
    List (Except PFError Value) → List (List Nat) × Except PFError (List EnumerateRpResponse)
  | [] =>
      if acc.length < target then
        ([enumerateRpsNextRequest], .error (.Io ("Timeout reading response packet")))
      else ([], .ok acc)
  | r :: rest =>
      if acc.length < target then
        match r with
        | .error e =>
            if errContains2E e then ([enumerateRpsNextRequest], .ok acc)
            else ([enumerateRpsNextRequest], .error e)
        | .ok v =>
            match v with
            | .map m =>
                match lookupV m (.int (credMgmtRespRp : Int)) with
                | none =>
                    ([enumerateRpsNextRequest],
                      .error (.Device ("RP not found in EnumerateRpsGetNextRp response")))
                | some rp =>
                    match lookupV m (.int (credMgmtRespRpIdHash : Int)) with
                    | some (.bytes h) =>
                        let next := enumRpsNextLoop target total (acc ++ [⟨rp, h, total⟩]) rest
                        (enumerateRpsNextRequest :: next.1, next.2)
                    | _ =>
                        ([enumerateRpsNextRequest],
                          .error (.Device ("RpIdHash not found in EnumerateRpsGetNextRp response")))
            | _ =>
                let next := enumRpsNextLoop target total acc rest
                (enumerateRpsNextRequest :: next.1, next.2)
      else ([], .ok acc)

/-- `credential_management_enumerate_rps` from the point where the PIN
token is in hand: issue EnumerateRpsBegin, parse the first record and
the optional `totalRps`, then fetch with GetNextRp until
`total_rps.unwrap_or(1)` records are in hand. -/
def credentialManagementEnumerateRps (C : CryptoPrims) (pinToken : List Nat)
    (beginResp : Except PFError Value) (nexts : List (Except PFError Value)) :
    List (List Nat) × Except PFError (List EnumerateRpResponse) :=
  let beginReq := enumerateRpsBeginRequest C pinToken
  match beginResp with
  | .error e =>
      if errContains2E e then ([beginReq], .ok []) else ([beginReq], .error e)
  | .ok v =>
      match v with
      | .map m =>
          match lookupV m (.int (credMgmtRespRp : Int)) with
          | none =>
              ([beginReq], .error (.Device ("RP not found in EnumerateRpsBegin response")))
          | some rp =>
              match lookupV m (.int (credMgmtRespRpIdHash : Int)) with
              | some (.bytes h) =>
                  let total : Option Nat :=
                    match lookupV m (.int (credMgmtRespTotalRps : Int)) with
                    | some (.int t) => some (usizeOfI128 t)
                    | _ => none
                  let next := enumRpsNextLoop (total.getD 1) total [⟨rp, h, total⟩] nexts
                  (beginReq :: next.1, next.2)
              | _ =>
                  ([beginReq],
                    .error (.Device ("RpIdHash not found in EnumerateRpsBegin response")))
      | _ =>
          let next := enumRpsNextLoop 1 none [] nexts
          (beginReq :: next.1, next.2)

/-- A scripted GetNextRp reply is well formed when it decodes to a map
with an `rp` entry and a byte-string `rpIdHash` entry. -/
def wellFormedRpReply (s : Except PFError Value) : Prop :=
  ∃ m rp h, s = .ok (.map m)
    ∧ lookupV m (.int (credMgmtRespRp : Int)) = some rp
    ∧ lookupV m (.int (credMgmtRespRpIdHash : Int)) = some (.bytes h)

/-! ## GetInfo parsing (`src/device/fido/mod.rs`) -/

/-- `hex::encode_upper`: two uppercase hex digits per byte. -/
def hexUpper (b : List Nat) : String :=
  String.mk ((b.map (fun x => [hexDigit (x / 16 % 16), hexDigit (x % 16)])).flatten)

/-- Rust `format!("{}.{}", (v >> 8) & 0xFF, v & 0xFF)` on an `i128`:
the arithmetic shift is a floor division and the mask is the
(always non-negative) two's-complement low byte. -/
def fwString (v : Int) : String :=
  toString (Int.fdiv v 256 % 256) ++ "." ++ toString (v % 256)

/-- Rust `as i32` on an `i128`: two's-complement truncation to 32
bits. -/
def asI32 (v : Int) : Int :=
  (v + 2147483648) % 4294967296 - 2147483648

/-- `CoseAlgorithm::from_i128` composed with its `Display`: the match
is performed on `val as i32`. -/
def coseAlgorithmName (v : Int) : Option String :=
  let w := asI32 v
  if w = -7 then some ("ES256")
  else if w = -8 then some ("EdDSA")
  else if w = -9 then some ("ESP256")
  else if w = -19 then some ("Ed25519")
  else if w = -25 then some ("ECDH-ES-HKDF-256")
  else if w = -35 then some ("ES384")
  else if w = -36 then some ("ES512")
  else if w = -47 then some ("ES256K")
  else if w = -51 then some ("ESP384")
  else if w = -52 then some ("ESP512")
  else if w = -53 then some ("Ed448")
  else if w = -257 then some ("RS256")
  else if w = -258 then some ("RS384")
  else if w = -259 then some ("RS512")
  else if w = -265 then some ("ESB256")
  else if w = -267 then some ("ESB384")
  else if w = -268 then some ("ESB512")
  else none

/-- `VendorConfigCommand`'s `Display` implementation. -/
def VendorConfigCommand.displayName : VendorConfigCommand → String
  | .AuthEncryptionEnable => "AuthEncryptionEnable"
  | .AuthEncryptionDisable => "AuthEncryptionDisable"
  | .EnterpriseAttestationUpload => "EnterpriseAttestationUpload"
  | .PinComplexityPolicy => "PinComplexityPolicy"
  | .PhysicalVidPid => "PhysicalVidPid"
  | .PhysicalLedBrightness => "PhysicalLedBrightness"
  | .PhysicalLedGpio => "PhysicalLedGpio"
  | .PhysicalOptions => "PhysicalOptions"

/-- `VendorConfigCommand::from_u64`. -/
def vendorConfigCommandFromU64 (v : Nat) : Option VendorConfigCommand :=
  if v = 0x03e43f56b34285e2 then some .AuthEncryptionEnable
  else if v = 0x1831a40f04a25ed9 then some .AuthEncryptionDisable
  else if v = 0x66f2a674c29a8dcf then some .EnterpriseAttestationUpload
  else if v = 0x6c07d70fe96c3897 then some .PinComplexityPolicy
  else if v = 0x6fcb19b0cbe3acfa then some .PhysicalVidPid
  else if v = 0x76a85945985d02fd then some .PhysicalLedBrightness
  else if v = 0x7b392a394de9f948 then some .PhysicalLedGpio
  else if v = 0x269f3b09eceb805f then some .PhysicalOptions
  else none

/-- `FidoCertification` of `constants.rs`. -/
inductive FidoCertification where
  | AuthEncryption
  | AuthEncryptionLock
  | EnterpriseAttestation
  | PinComplexity
  | PhysicalVidPid
  | LedBrightness
  | LedGpio
  | PhysicalOptions
deriving DecidableEq, Repr

/-- `FidoCertification::from_u64`. -/
def FidoCertification.fromU64 (v : Nat) : Option FidoCertification :=
  if v = 0x03E43F56B34285E2 then some .AuthEncryption
  else if v = 0x1831A40F04A25ED9 then some .AuthEncryptionLock
  else if v = 0x66F2A674C29A8DCF then some .EnterpriseAttestation
  else if v = 0x6C07D70FE96C3897 then some .PinComplexity
  else if v = 0x6FCB19B0CBE3ACFA then some .PhysicalVidPid
  else if v = 0x76A85945985D02FD then some .LedBrightness
  else if v = 0x7B392A394DE9F948 then some .LedGpio
  else if v = 0x269F3B09ECEB805F then some .PhysicalOptions
  else none

/-- `FidoCertification`'s `Display`. -/
def FidoCertification.displayName : FidoCertification → String
  | .AuthEncryption => "Auth Encryption"
  | .AuthEncryptionLock => "Auth Encryption (Lock)"
  | .EnterpriseAttestation => "Enterprise Attestation"
  | .PinComplexity => "PIN Complexity"
  | .PhysicalVidPid => "Physical VID/PID"
  | .LedBrightness => "LED Brightness"
  | .LedGpio => "LED GPIO"
  | .PhysicalOptions => "Physical Options"

/-- `val.strip_prefix("0x").unwrap_or(val)`. -/
def stripHexMark (s : String) : String :=
  if s.startsWith ("0x") then s.drop 2 else s

/-- Hexadecimal digit value of a character (both cases), as accepted
by `from_str_radix(_, 16)`. -/
def hexDigitVal (c : Char) : Option Nat :=
  if ('0' ≤ c ∧ c ≤ '9') then some (c.toNat - 48)
  else if ('a' ≤ c ∧ c ≤ 'f') then some (c.toNat - 87)
  else if ('A' ≤ c ∧ c ≤ 'F') then some (c.toNat - 55)
  else none

/-- `u64::from_str_radix(s, 16)`: an optional leading '+', then at
least one hex digit, with overflow beyond `u64::MAX` rejected. -/
def parseHexU64 (s : String) : Option Nat :=
  let chars :=
    match s.toList with
    | '+' :: rest => rest
    | l => l
  if chars.isEmpty then none
  else chars.foldl
    (fun acc c =>
      match acc, hexDigitVal c with
      | some a, some d => if a * 16 + d < 2 ^ 64 then some (a * 16 + d) else none
      | _, _ => none)
    (some 0)

/-- `FidoCertification::from_str`: strip an optional "0x", parse as
hex, then look the value up. -/
def fidoCertificationFromStr (s : String) : Option FidoCertification :=
  (parseHexU64 (stripHexMark s)).bind FidoCertification.fromU64

/-- Rust `format!("{:016X}", u64)`. -/
def hex16X (n : Nat) : String :=
  String.mk ((List.range 16).map (fun k => hexDigit (n >>> ((15 - k) * 4) % 16)))

/-- Rust `as u32` on an `i128`. -/
def u32OfI128 (t : Int) : Nat := (t % (2 ^ 32 : Int)).toNat

/-- Rust `as u64` on an `i128`. -/
def u64OfI128 (t : Int) : Nat := (t % (2 ^ 64 : Int)).toNat

/-- The `Value::Text` elements of an array, in order (the push loops
over `versions`/`extensions` arrays). -/
def collectTexts (l : List Value) : List String :=
  l.filterMap (fun v => match v with | .text s => some s | _ => none)

/-- `HashMap::insert` modelled on an association list: replace the
value of an existing key, otherwise append. -/
def insertAssoc (k : String) (v : Bool) : List (String × Bool) → List (String × Bool)
  | [] => [(k, v)]
  | (k', v') :: rest =>
      if k' = k then (k, v) :: rest else (k', v') :: insertAssoc k v rest

/-- The options loop (key 0x04): insert every `Text → Bool` entry. -/
def insertOptions (opts : List (String × Bool)) (entries : List (Value × Value)) :
    List (String × Bool) :=
  entries.foldl
    (fun acc e =>
      match e with
      | (.text n, .bool b) => insertAssoc n b acc
      | _ => acc)
    opts

/-- The algorithms loop (key 0x0A): for each array element that is a
map with an integer at text key "alg", push the algorithm's display
name or `Unknown (id)`. -/
def collectAlgorithms (l : List Value) : List String :=
  l.filterMap (fun v =>
    match v with
    | .map m =>
        match lookupV m (.text ("alg")) with
        | some (.int algId) =>
            some ((coseAlgorithmName algId).getD ("Unknown (" ++ toString algId ++ ")"))
        | _ => none
    | _ => none)

/-- The vendor-config-commands loop (key 0x13): map each integer,
taken `as u64`, to its `VendorConfigCommand` display name or
`0x%016X`. -/
def collectVendorConfigCommands (l : List Value) : List String :=
  l.filterMap (fun v =>
    match v with
    | .int n =>
        let cmdId := u64OfI128 n
        some (((vendorConfigCommandFromU64 cmdId).map VendorConfigCommand.displayName).getD
          ("0x" ++ hex16X cmdId))
    | _ => none)

/-- The certifications map loop (key 0x15, map form): every
`Text → Bool` entry is inserted under its `FidoCertification` display
name when the text parses as a known 64-bit id, else under the raw
text. -/
def insertCertificationsMap (certs : List (String × Bool))
    (entries : List (Value × Value)) : List (String × Bool) :=
  entries.foldl
    (fun acc e =>
      match e with
      | (.text name, .bool enabled) =>
          insertAssoc
            (((fidoCertificationFromStr name).map FidoCertification.displayName).getD name)
            enabled acc
      | _ => acc)
    certs

/-- The certifications array loop (key 0x15, array form): every
integer, taken `as u64`, is inserted as `true` under its display name
or `0x%016X`. -/
def insertCertificationsArr (certs : List (String × Bool)) (l : List Value) :
    List (String × Bool) :=
  l.foldl
    (fun acc v =>
      match v with
      | .int id =>
          let certId := u64OfI128 id
          insertAssoc
            (((FidoCertification.fromU64 certId).map FidoCertification.displayName).getD
              ("0x" ++ hex16X certId))
            true acc
      | _ => acc)
    certs

/-- The mutable locals of `get_fido_info`'s parsing loop. -/
structure GetInfoState where
  versions : List String
  extensions : List String
  aaguid : String
  options : List (String × Bool)
  maxMsgSize : Int
  pinProtocols : List Nat
  remainingDiscoverableCredentials : Option Int
  minPinLength : Int
  firmwareVersionRaw : Int
  vendorConfigCommands : List String
  certifications : List (String × Bool)
  maxCredentialCountInList : Option Int
  maxCredentialIdLength : Option Int
  algorithms : List String
  maxSerializedLargeBlobArray : Option Int
  forcePinChange : Option Bool
  maxCredBlobLength : Option Int

/-- The initial values of `get_fido_info`'s locals. -/
def initGetInfoState : GetInfoState where
  versions := []
  extensions := []
  aaguid := "Unknown"
  options := []
  maxMsgSize := 0
  pinProtocols := []
  remainingDiscoverableCredentials := none
  minPinLength := 0
  firmwareVersionRaw := 0
  vendorConfigCommands := []
  certifications := []
  maxCredentialCountInList := none
  maxCredentialIdLength := none
  algorithms := []
  maxSerializedLargeBlobArray := none
  forcePinChange := none
  maxCredBlobLength := none

/-- Key 0x01: versions (array of text). -/
def stepVersions (st : GetInfoState) (v : Value) : GetInfoState :=
  match v with
  | .arr l => { st with versions := st.versions ++ collectTexts l }
  | _ => st

/-- Key 0x02: extensions (array of text). -/
def stepExtensions (st : GetInfoState) (v : Value) : GetInfoState :=
  match v with
  | .arr l => { st with extensions := st.extensions ++ collectTexts l }
  | _ => st

/-- Key 0x03: AAGUID (bytes, upper-hex). -/
def stepAaguid (st : GetInfoState) (v : Value) : GetInfoState :=
  match v with
  | .bytes b => { st with aaguid := hexUpper b }
  | _ => st

/-- Key 0x04: options (map of text to bool). -/
def stepOptions (st : GetInfoState) (v : Value) : GetInfoState :=
  match v with
  | .map m => { st with options := insertOptions st.options m }
  | _ => st

/-- Key 0x05: maxMsgSize. -/
def stepMaxMsgSize (st : GetInfoState) (v : Value) : GetInfoState :=
  match v with
  | .int n => { st with maxMsgSize := n }
  | _ => st

/-- Key 0x06: pinUvAuthProtocols (array of integers, each `as u32`). -/
def stepPinProtocols (st : GetInfoState) (v : Value) : GetInfoState :=
  match v with
  | .arr l =>
      { st with pinProtocols := st.pinProtocols ++
          l.filterMap (fun w => match w with | .int n => some (u32OfI128 n) | _ => none) }
  | _ => st

/-- Key 0x07: maxCredentialCountInList. -/
def stepMaxCredCount (st : GetInfoState) (v : Value) : GetInfoState :=
  match v with
  | .int n => { st with maxCredentialCountInList := some n }
  | _ => st

/-- Key 0x08: maxCredentialIdLength. -/
def stepMaxCredIdLen (st : GetInfoState) (v : Value) : GetInfoState :=
  match v with
  | .int n => { st with maxCredentialIdLength := some n }
  | _ => st

/-- Key 0x0A: algorithms. -/
def stepAlgorithms (st : GetInfoState) (v : Value) : GetInfoState :=
  match v with
  | .arr l => { st with algorithms := st.algorithms ++ collectAlgorithms l }
  | _ => st

/-- Key 0x0B: maxSerializedLargeBlobArray. -/
def stepMaxLargeBlob (st : GetInfoState) (v : Value) : GetInfoState :=
  match v with
  | .int n => { st with maxSerializedLargeBlobArray := some n }
  | _ => st

/-- Key 0x0C: forcePinChange. -/
def stepForcePinChange (st : GetInfoState) (v : Value) : GetInfoState :=
  match v with
  | .bool b => { st with forcePinChange := some b }
  | _ => st

/-- Key 0x0D: minPINLength. -/
def stepMinPinLength (st : GetInfoState) (v : Value) : GetInfoState :=
  match v with
  | .int n => { st with minPinLength := n }
  | _ => st

/-- Key 0x0E: firmwareVersion (raw integer, formatted later). -/
def stepFirmwareVersion (st : GetInfoState) (v : Value) : GetInfoState :=
  match v with
  | .int n => { st with firmwareVersionRaw := n }
  | _ => st

/-- Key 0x0F: maxCredBlobLength. -/
def stepMaxCredBlobLen (st : GetInfoState) (v : Value) : GetInfoState :=
  match v with
  | .int n => { st with maxCredBlobLength := some n }
  | _ => st

/-- Key 0x13: vendorPrototypeConfigCommands. -/
def stepVendorConfigCmds (st : GetInfoState) (v : Value) : GetInfoState :=
  match v with
  | .arr l =>
      { st with vendorConfigCommands :=
          st.vendorConfigCommands ++ collectVendorConfigCommands l }
  | _ => st

/-- Key 0x14: remainingDiscoverableCredentials. -/
def stepRemainingCreds (st : GetInfoState) (v : Value) : GetInfoState :=
  match v with
  | .int n => { st with remainingDiscoverableCredentials := some n }
  | _ => st

/-- Key 0x15: certifications (map of text to bool, or array of ids). -/
def stepCertifications (st : GetInfoState) (v : Value) : GetInfoState :=
  match v with
  | .map m => { st with certifications := insertCertificationsMap st.certifications m }
  | .arr l => { st with certifications := insertCertificationsArr st.certifications l }
  | _ => st

/-- One iteration of `get_fido_info`'s `for (key, val) in map` loop:
non-integer keys are skipped (`continue`), each recognized integer key
updates its field when the value has the expected shape, keys
0x10–0x12 and 0x16 are silently skipped, and any other key is logged
and skipped. -/
def getInfoStep (st : GetInfoState) : Value × Value → GetInfoState
  | (.int keyNum, v) =>
      if keyNum = 0x01 then stepVersions st v
      else if keyNum = 0x02 then stepExtensions st v
      else if keyNum = 0x03 then stepAaguid st v
      else if keyNum = 0x04 then stepOptions st v
      else if keyNum = 0x05 then stepMaxMsgSize st v
      else if keyNum = 0x06 then stepPinProtocols st v
      else if keyNum = 0x07 then stepMaxCredCount st v
      else if keyNum = 0x08 then stepMaxCredIdLen st v
      else if keyNum = 0x0A then stepAlgorithms st v
      else if keyNum = 0x0B then stepMaxLargeBlob st v
      else if keyNum = 0x0C then stepForcePinChange st v
      else if keyNum = 0x0D then stepMinPinLength st v
      else if keyNum = 0x0E then stepFirmwareVersion st v
      else if keyNum = 0x0F then stepMaxCredBlobLen st v
      else if keyNum = 0x13 then stepVendorConfigCmds st v
      else if keyNum = 0x14 then stepRemainingCreds st v
      else if keyNum = 0x15 then stepCertifications st v
      else st
  | _ => st

/-- The integer keys on which `getInfoStep` can change the state; keys
0x10–0x12 and 0x16 (silently skipped) and every unknown key leave the
state unchanged. -/
def getInfoUpdateKeys : List Int :=
  [0x01, 0x02, 0x03, 0x04, 0x05, 0x06, 0x07, 0x08, 0x0A, 0x0B, 0x0C, 0x0D,
    0x0E, 0x0F, 0x13, 0x14, 0x15]

/-- The parsed device-information record `FidoDeviceInfo`
(`device/types.rs` fields as consumed here; the two `HashMap` fields
are association lists). -/
structure FidoDeviceInfo where
  versions : List String
  extensions : List String
  aaguid : String
  options : List (String × Bool)
  maxMsgSize : Int
  pinProtocols : List Nat
  remainingDiscoverableCredentials : Option Int
  minPinLength : Int
  firmwareVersion : String
  vendorConfigCommands : List String
  certifications : List (String × Bool)
  maxCredentialCountInList : Option Int
  maxCredentialIdLength : Option Int
  algorithms : List String
  maxSerializedLargeBlobArray : Option Int
  forcePinChange : Option Bool
  maxCredBlobLength : Option Int

/-- The record `get_fido_info` returns for a map response: run the
parsing loop over the entries (in `BTreeMap` iteration order), then
format the firmware version from the raw integer. -/
def getFidoInfoOfMap (entries : List (Value × Value)) : FidoDeviceInfo :=
  let st := entries.foldl getInfoStep initGetInfoState
  { versions := st.versions
    extensions := st.extensions
    aaguid := st.aaguid
    options := st.options
    maxMsgSize := st.maxMsgSize
    pinProtocols := st.pinProtocols
    remainingDiscoverableCredentials := st.remainingDiscoverableCredentials
    minPinLength := st.minPinLength
    firmwareVersion := fwString st.firmwareVersionRaw
    vendorConfigCommands := st.vendorConfigCommands
    certifications := st.certifications
    maxCredentialCountInList := st.maxCredentialCountInList
    maxCredentialIdLength := st.maxCredentialIdLength
    algorithms := st.algorithms
    maxSerializedLargeBlobArray := st.maxSerializedLargeBlobArray
    forcePinChange := st.forcePinChange
    maxCredBlobLength := st.maxCredBlobLength }

/-- `get_fido_info` from the decoded GetInfo `Value` on: a non-map
response is the only parse failure. -/
def getFidoInfo (v : Value) : Except String FidoDeviceInfo :=
  match v with
  | .map m => .ok (getFidoInfoOfMap m)
  | _ => .error ("GetInfo response is not a CBOR map")

/-- `read_device_info` from the decoded GetInfo `Value` on: AAGUID
from key 0x03 (bytes, upper-hex) and firmware version from key 0x0E
(integer, `major.minor`), each falling back to "Unknown". -/
def readDeviceInfo (v : Value) : String × String :=
  let aaguid :=
    match v with
    | .map m =>
        ((lookupV m (.int 0x03)).bind (fun x =>
          match x with
          | .bytes b => some (hexUpper b)
          | _ => none)).getD ("Unknown")
    | _ => "Unknown"
  let fw :=
    match v with
    | .map m =>
        ((lookupV m (.int 0x0E)).bind (fun x =>
          match x with
          | .int i => some (fwString i)
          | _ => none)).getD ("Unknown")
    | _ => "Unknown"
  (aaguid, fw)

/-! ## Theorems -/

/-! ### Transmit-path lemmas -/

theorem padTo_eq_append (n : Nat) (l : List Nat) :
    padTo n l = l ++ List.replicate (n - l.length) 0 := rfl

theorem contFrame_drop5 (cid seq : Nat) (chunk : List Nat) (h : chunk.length ≤ 59) :
    (contFrame cid seq chunk).drop 5 =
      chunk ++ List.replicate (59 - chunk.length) 0 := by
  have hlen : (beBytes32 cid ++ [0x7F &&& seq % 256] ++ chunk).length = 5 + chunk.length := by
    simp [beBytes32]
    omega
  have hrep : 64 - (5 + chunk.length) = 59 - chunk.length := by omega
  have hpre : (beBytes32 cid ++ [0x7F &&& seq % 256]).length = 5 := by simp [beBytes32]
  have hframe : contFrame cid seq chunk =
      (beBytes32 cid ++ [0x7F &&& seq % 256]) ++
        (chunk ++ List.replicate (59 - chunk.length) 0) := by
    rw [contFrame, padTo, hlen, hrep, List.append_assoc]
  rw [hframe, List.drop_left' hpre]

theorem take_append_replicate (l : List Nat) (k m : Nat) (h : k ≤ l.length) :
    (l ++ List.replicate m 0).take k = l.take k := by
  rw [List.take_append_of_le_length h]

theorem writeContFrames_length (cid seq : Nat) (rest : List Nat) :
    (writeContFrames cid seq rest).length = (rest.length + 58) / 59 := by
  induction seq, rest using writeContFrames.induct cid with
  | case1 seq => rw [writeContFrames]; simp
  | case2 seq rest hne ih =>
    rw [writeContFrames]
    simp only [if_neg hne, List.length_cons, ih, List.length_drop]
    have hlen : rest.length ≠ 0 := by simpa [List.length_eq_zero] using hne
    omega

theorem carriedCont_writeContFrames (cid seq : Nat) (rest : List Nat) :
    carriedCont (writeContFrames cid seq rest) rest.length = rest := by
  induction seq, rest using writeContFrames.induct cid with
  | case1 seq => rw [writeContFrames]; simp [carriedCont]
  | case2 seq rest hne ih =>
    rw [writeContFrames]
    simp only [if_neg hne]
    have htake : (rest.take 59).length ≤ 59 := by
      simp [List.length_take]
    rw [carriedCont, contFrame_drop5 _ _ _ htake]
    have hmin : min rest.length 59 = (rest.take 59).length := by
      simp [List.length_take, Nat.min_comm]
    rw [hmin, List.take_left' rfl]
    have hdrop : rest.length - (rest.take 59).length = (rest.drop 59).length := by
      simp only [List.length_take, List.length_drop]
      omega
    rw [hdrop, ih]
    exact rest.take_append_drop 59

theorem and127_mod (x : Nat) : 0x7F &&& x % 256 = x % 128 := by
  rw [Nat.and_comm]
  have h7 : (0x7F : Nat) = 2 ^ 7 - 1 := by norm_num
  rw [h7, Nat.and_pow_two_sub_one_eq_mod, Nat.mod_mod_of_dvd]
  norm_num

theorem contFrame_seqByte (cid seq : Nat) (chunk : List Nat) :
    (contFrame cid seq chunk).get? 4 = some (seq % 128) := by
  have h : (contFrame cid seq chunk).get? 4 = some (0x7F &&& seq % 256) := rfl
  rw [h, and127_mod]

theorem writeContFrames_seqBytes (cid : Nat) :
    ∀ seq rest i f, (writeContFrames cid seq rest).get? i = some f →
      f.get? 4 = some ((seq + i) % 128) := by
  intro seq rest
  induction seq, rest using writeContFrames.induct cid with
  | case1 seq =>
    intro i f h
    rw [writeContFrames] at h
    simp at h
  | case2 seq rest hne ih =>
    intro i f h
    rw [writeContFrames, if_neg hne] at h
    match i with
    | 0 =>
      simp only [List.get?_cons_zero, Option.some.injEq] at h
      rw [← h, contFrame_seqByte, Nat.add_zero]
    | i + 1 =>
      simp only [List.get?_cons_succ] at h
      have := ih i f h
      rw [this]
      congr 1
      omega

theorem initFrame_take7 (cid cmd : Nat) (p : List Nat) :
    (initFrame cid cmd p).take 7 =
      beBytes32 cid ++ [cmd % 256, p.length >>> 8 % 256, p.length % 256] := by
  have hpre : (beBytes32 cid ++ [cmd % 256, p.length >>> 8 % 256, p.length % 256]).length = 7 := by
    simp [beBytes32]
  rw [initFrame, padTo, List.append_assoc, List.take_append_of_le_length (by omega)]
  exact List.take_of_length_le hpre.le

theorem initFrame_drop7 (cid cmd : Nat) (p : List Nat) :
    (initFrame cid cmd p).drop 7 =
      p.take 57 ++ List.replicate (57 - (p.take 57).length) 0 := by
  have hlen : (beBytes32 cid ++ [cmd % 256, p.length >>> 8 % 256, p.length % 256]
      ++ p.take 57).length = 7 + (p.take 57).length := by
    simp [beBytes32]
    omega
  have htk : (p.take 57).length ≤ 57 := by simp
  have hrep : 64 - (7 + (p.take 57).length) = 57 - (p.take 57).length := by omega
  have hpre : (beBytes32 cid ++ [cmd % 256, p.length >>> 8 % 256, p.length % 256]).length = 7 := by
    simp [beBytes32]
  have hframe : initFrame cid cmd p =
      (beBytes32 cid ++ [cmd % 256, p.length >>> 8 % 256, p.length % 256]) ++
        (p.take 57 ++ List.replicate (57 - (p.take 57).length) 0) := by
    rw [initFrame, padTo, hlen, hrep, List.append_assoc]
  rw [hframe, List.drop_left' hpre]

theorem carriedBytes_writeCborFrames (cid cmd : Nat) (p : List Nat) :
    carriedBytes (writeCborFrames cid cmd p) p.length = p := by
  rw [writeCborFrames, carriedBytes, initFrame_drop7]
  have hmin : min p.length 57 = (p.take 57).length := by
    simp [List.length_take, Nat.min_comm]
  rw [hmin, List.take_left' rfl]
  have hdrop : p.length - (p.take 57).length = (p.drop 57).length := by
    simp only [List.length_take, List.length_drop]
    omega
  rw [hdrop, carriedCont_writeContFrames]
  exact p.take_append_drop 57

theorem shiftRight8_mod256 (L : Nat) (h : L ≤ 0xFFFF) : L >>> 8 % 256 = L / 256 := by
  rw [Nat.shiftRight_eq_div_pow]
  norm_num
  omega

/-! ### Claim theorems -/

/-- **C1** (corrected).  For every command byte `cmd < 256` and payload
`P` of length `L ≤ 0xFFFF`, `write_cbor_request` emits exactly one
initialization frame followed by exactly `ceil(max(0, L-57)/59)`
continuation frames; the initialization header carries the channel,
the command byte exactly as supplied (the transmit path does not set
the high bit — the claim's "with its high bit set" fails, see the
counterexample), and `L` as a big-endian 16-bit integer; the `i`-th
continuation frame carries sequence byte `i % 128` (with high bit
clear; equal to `0, 1, 2, …` until the 7-bit counter wraps, which the
claim's unqualified `0, 1, 2, …` misses for `L ≥ 7610`); and the
payload bytes carried by all frames concatenate to `P`. -/
theorem c1_hid_transmit_framing (cid cmd : Nat) (payload : List Nat)
    (hcmd : cmd < 256) (hlen : payload.length ≤ 0xFFFF) :
    writeCborFrames cid cmd payload =
      initFrame cid cmd payload :: writeContFrames cid 0 (payload.drop 57)
    ∧ (writeCborFrames cid cmd payload).length
        = 1 + (payload.length - 57 + 58) / 59
    ∧ (initFrame cid cmd payload).take 7 =
        beBytes32 cid ++ [cmd, payload.length / 256, payload.length % 256]
    ∧ 256 * (payload.length / 256) + payload.length % 256 = payload.length
    ∧ (∀ i f, (writeContFrames cid 0 (payload.drop 57)).get? i = some f →
        f.get? 4 = some (i % 128) ∧ i % 128 < 128)
    ∧ carriedBytes (writeCborFrames cid cmd payload) payload.length = payload := by
  refine ⟨rfl, ?_, ?_, by omega, ?_, carriedBytes_writeCborFrames cid cmd payload⟩
  · have h1 := writeContFrames_length cid 0 (payload.drop 57)
    simp only [writeCborFrames, List.length_cons, List.length_drop] at h1 ⊢
    omega
  · rw [initFrame_take7, Nat.mod_eq_of_lt hcmd, shiftRight8_mod256 _ hlen]
  · intro i f h
    refine ⟨?_, Nat.mod_lt _ (by norm_num)⟩
    simpa using writeContFrames_seqBytes cid 0 (payload.drop 57) i f h

/-- **C1 counterexample.**  The claim as stated is false: (a) for
command byte 0x10 the emitted initialization frame carries 0x10
itself, whose high bit is clear (the transmit path never sets the high
bit; callers pass already-high-bit commands like 0x90); (b) for a
payload of 7610 bytes the 129-th continuation frame carries sequence
byte 0, not 128 — the masked `u8` counter wraps mod 128. -/
theorem c1_hid_transmit_framing_cex :
    (initFrame 0xDEADBEEF 0x10 []).get? 4 = some 0x10
    ∧ Nat.testBit 0x10 7 = false
    ∧ (0x10 ||| 0x80) ≠ 0x10
    ∧ ((writeCborFrames 1 0x90 (List.replicate 7610 0)).get? 129).map (fun f => f.get? 4)
        = some (some 0) := by
  refine ⟨rfl, by decide, by decide, ?_⟩
  have hdrop : (List.replicate 7610 (0 : Nat)).drop 57 = List.replicate 7553 0 := by
    have hsplit : (List.replicate 7610 (0 : Nat))
        = List.replicate 57 0 ++ List.replicate 7553 0 := by
      rw [← List.replicate_add]
    rw [hsplit, List.drop_left' (by simp)]
  have hcons : (writeCborFrames 1 0x90 (List.replicate 7610 0)).get? 129
      = (writeContFrames 1 0 (List.replicate 7553 0)).get? 128 := by
    rw [writeCborFrames, hdrop, List.get?_cons_succ]
  rw [hcons]
  have hl : (writeContFrames 1 0 (List.replicate 7553 0)).length = 129 := by
    rw [writeContFrames_length, List.length_replicate]
  have h128 : 128 < (writeContFrames 1 0 (List.replicate 7553 0)).length := by omega
  have hsome := List.get?_eq_get h128
  rw [hsome, Option.map_some']
  rw [writeContFrames_seqBytes 1 0 (List.replicate 7553 0) 128 _ hsome]

/-- **C1 witness.**  The framing theorem applied to command 0x90 and
the three-byte payload `[1, 2, 3]`. -/
theorem c1_hid_transmit_framing_witness :
    (0x90 : Nat) < 256 ∧ ([1, 2, 3] : List Nat).length ≤ 0xFFFF ∧
      carriedBytes (writeCborFrames 0xDEADBEEF 0x90 [1, 2, 3])
        ([1, 2, 3] : List Nat).length = [1, 2, 3] :=
  ⟨by decide, by decide,
    (c1_hid_transmit_framing 0xDEADBEEF 0x90 [1, 2, 3] (by decide) (by decide)).2.2.2.2.2⟩


/-- **C2** (code bug).  The source never resets the 5-second total
deadline: `start_time` is fixed when `read_cbor_response` begins and
keep-alives only `continue` the loop.  On a trace where two on-channel
keep-alives arrive at 3000 ms and 6000 ms and the data frame at
7000 ms — every arrival within 5 s of the previous one — the code
times out at the 6000 ms deadline check, while the spec's
deadline-resetting loop (`readCborResponseSpecReset`) returns the
response.  The claim (reset on each keep-alive) describes the spec,
not the code. -/
theorem c2_keepalive_deadline_not_reset :
    readCborResponse 1 0x90
        [⟨3000, padTo 64 [0, 0, 0, 1, 0xBB]⟩, ⟨6000, padTo 64 [0, 0, 0, 1, 0xBB]⟩,
          ⟨7000, padTo 64 [0, 0, 0, 1, 0x90, 0, 1]⟩]
      = .error (.Device ("Timeout waiting for device response (Keepalive limit exceeded)"))
    ∧ readCborResponseSpecReset 1 0x90
        [⟨3000, padTo 64 [0, 0, 0, 1, 0xBB]⟩, ⟨6000, padTo 64 [0, 0, 0, 1, 0xBB]⟩,
          ⟨7000, padTo 64 [0, 0, 0, 1, 0x90, 0, 1]⟩]
      = .ok []
    ∧ 3000 - 0 ≤ 5000 ∧ 6000 - 3000 ≤ 5000 ∧ 7000 - 6000 ≤ 5000 := by
  refine ⟨?_, ?_, by omega, by omega, by omega⟩
  · rfl
  · rfl

/-- **C8** (confirmed).  In the continuation-reading loop, frames on
other channels are skipped without any state change; an on-channel
frame whose sequence byte equals the expected value advances the
expected value by one (so accepted frames carry exactly 0, 1, 2, …);
and the first on-channel frame whose sequence byte differs from the
expected value fails the read with the sequence-mismatch error
(`PFError::Device("Sequence mismatch")`, the spec's Framing kind),
regardless of any off-channel frames before it. -/
theorem c8_continuation_sequence_check (cid elen : Nat) (acc : List Nat)
    (rlen lastSeq : Nat) (pre : List Packet) (p : Packet) (rest : List Packet)
    (hneed : rlen < elen)
    (hpre : ∀ q ∈ pre, beU32 q.data ≠ cid)
    (hon : beU32 p.data = cid)
    (hseq : p.data.getD 4 0 ≠ lastSeq % 256) :
    readContLoop cid elen acc rlen lastSeq (pre ++ p :: rest)
      = .error (.Device ("Sequence mismatch"))
    ∧ (∀ q rest2, beU32 q.data ≠ cid →
        readContLoop cid elen acc rlen lastSeq (q :: rest2)
          = readContLoop cid elen acc rlen lastSeq rest2)
    ∧ (∀ q rest2, beU32 q.data = cid → q.data.getD 4 0 = lastSeq % 256 →
        readContLoop cid elen acc rlen lastSeq (q :: rest2)
          = readContLoop cid elen (acc ++ (q.data.drop 5).take (min (elen - rlen) 59))
              (rlen + min (elen - rlen) 59) (lastSeq + 1) rest2) := by
  have hseq' : ¬p.data[4]?.getD 0 = lastSeq % 256 := by
    simpa using hseq
  refine ⟨?_, ?_, ?_⟩
  · induction pre with
    | nil =>
      simp only [List.nil_append, readContLoop, if_pos hneed, hon]
      simp [hseq']
    | cons q pre2 ih =>
      have hq : beU32 q.data ≠ cid := hpre q (List.mem_cons_self q pre2)
      simp only [List.cons_append, readContLoop, if_pos hneed, if_pos hq]
      exact ih (fun r hr => hpre r (List.mem_cons_of_mem q hr))
  · intro q rest2 hq
    simp [readContLoop, hneed, hq]
  · intro q rest2 hq hseq2
    have hseq2' : q.data[4]?.getD 0 = lastSeq % 256 := by
      simpa using hseq2
    simp [readContLoop, hneed, hq, hseq2']

/-- **C8 witness.**  One off-channel frame (channel 2) is skipped, and
the following on-channel frame carrying sequence byte 5 instead of the
expected 0 fails a read expecting one more byte. -/
theorem c8_continuation_sequence_check_witness :
    (0 : Nat) < 1
    ∧ beU32 [0, 0, 0, 1, 5] = 1
    ∧ ([0, 0, 0, 1, 5] : List Nat).getD 4 0 ≠ 0 % 256
    ∧ readContLoop 1 1 [] 0 0 [⟨50, [0, 0, 0, 2]⟩, ⟨80, [0, 0, 0, 1, 5]⟩]
        = .error (.Device ("Sequence mismatch")) := by
  refine ⟨by decide, by decide, by decide, ?_⟩
  have h := c8_continuation_sequence_check 1 1 [] 0 0 [⟨50, [0, 0, 0, 2]⟩]
    ⟨80, [0, 0, 0, 1, 5]⟩ [] (by decide)
    (by intro q hq; simp only [List.mem_singleton] at hq; subst hq; decide)
    (by decide) (by decide)
  exact h.1

/-- **C3** (corrected).  The getPinUvAuthTokenUsingPinWithPermissions
request is the ClientPin command byte followed by a CBOR map with
key 1 = 1 (pinUvAuthProtocol), key 3 = the client COSE key, key 6 =
pinHashEnc, key 9 = the permissions bitmask, and key 10 = the
relying-party id when supplied — but the subCommand entry (key 2)
carries the value 8, the value `constants.rs` declares for
`GetPinUvAuthTokenUsingPinWithPermissions`, not the 9 the claim
states. -/
theorem c3_get_pin_uv_auth_token_request (coseKeyBytes pinHashEnc : List Nat)
    (perm : Nat) (rpId : Option String) :
    getPinTokenWithPermissionRequest coseKeyBytes pinHashEnc perm rpId
      = [CtapCommand.ClientPin] ++
          [0xA0 ||| (5 + (if rpId.isSome then 1 else 0)) % 256] ++
          [0x01] ++ [0x01] ++ [0x02] ++ [0x08] ++ [0x03] ++ coseKeyBytes ++
          [0x06] ++ encValue (.bytes pinHashEnc) ++ [0x09] ++ cborInt perm ++
          (match rpId with
            | some rp => [0x0A] ++ encValue (.text rp)
            | none => [])
    ∧ ClientPinSubCommand.GetPinUvAuthTokenUsingPinWithPermissions = 8 := by
  refine ⟨?_, rfl⟩
  cases rpId with
  | none =>
      simp [getPinTokenWithPermissionRequest, encodeClientPinParams,
        CtapCommand.ClientPin, ClientPinParam.PinUvAuthProtocol,
        ClientPinParam.SubCommand, ClientPinParam.KeyAgreement,
        ClientPinParam.PinHashEnc, ClientPinParam.Permissions,
        ClientPinParam.PermissionsRpId,
        ClientPinSubCommand.GetPinUvAuthTokenUsingPinWithPermissions,
        cborInt, cborHead]
  | some rp =>
      simp [getPinTokenWithPermissionRequest, encodeClientPinParams,
        CtapCommand.ClientPin, ClientPinParam.PinUvAuthProtocol,
        ClientPinParam.SubCommand, ClientPinParam.KeyAgreement,
        ClientPinParam.PinHashEnc, ClientPinParam.Permissions,
        ClientPinParam.PermissionsRpId,
        ClientPinSubCommand.GetPinUvAuthTokenUsingPinWithPermissions,
        cborInt, cborHead]

/-- **C3 counterexample.**  In the encoded request map the value of the
subCommand entry (key byte 0x02, at index 3) is 8, not 9: the claim's
"subCommand entry (key 2) has value 9" is false on the code. -/
theorem c3_get_pin_uv_auth_token_request_cex :
    encodeClientPinParams ClientPinSubCommand.GetPinUvAuthTokenUsingPinWithPermissions
        [] [] (some 4) none
      = [0xA5, 0x01, 0x01, 0x02, 0x08, 0x03, 0x06, 0x40, 0x09, 0x04]
    ∧ ([0xA5, 0x01, 0x01, 0x02, 0x08, 0x03, 0x06, 0x40, 0x09, 0x04] : List Nat).get? 4
        = some 8
    ∧ (8 : Nat) ≠ 9 :=
  ⟨rfl, rfl, by decide⟩

/-- **C4** (confirmed).  `sign_credential_mgmt_command` signs exactly
the message the spec's firmware-compatible rule describes: the bare
subcommand byte for getCredsMetadata (0x01) and enumerateRpsBegin
(0x02), and the subcommand byte followed by the CBOR subcommand params
for every other subcommand; the result is the HMAC truncated to its
first 16 bytes.  The message never contains the 32-byte 0xFF prefix or
the CredentialManagement command byte (0x0A) of standard CTAP 2.1. -/
theorem c4_credential_mgmt_signing (C : CryptoPrims) (tok params : List Nat) :
    (∀ subCmd, signCredentialMgmtCommand C tok subCmd (some params)
        = (C.hmacSha256 tok (credMgmtSignedMessageSpec subCmd params)).take 16)
    ∧ signCredentialMgmtCommand C tok credMgmtEnumerateRpsBegin none
        = (C.hmacSha256 tok (credMgmtSignedMessageSpec credMgmtEnumerateRpsBegin params)).take 16
    ∧ credMgmtSignedMessageSpec credMgmtGetCredsMetadata params = [0x01]
    ∧ credMgmtSignedMessageSpec credMgmtEnumerateRpsBegin params = [0x02]
    ∧ (∀ subCmd, subCmd ≠ 0x01 → subCmd ≠ 0x02 →
        credMgmtSignedMessageSpec subCmd params = subCmd :: params)
    ∧ credMgmtSignedMessageSpec credMgmtEnumerateCredentialsBegin params
        ≠ List.replicate 32 0xFF ++ (0x0A :: credMgmtEnumerateCredentialsBegin :: params) := by
  refine ⟨?_, ?_, ?_, ?_, ?_, ?_⟩
  · intro subCmd
    by_cases h1 : subCmd = 0x01
    · simp [signCredentialMgmtCommand, credMgmtSignedMessageSpec,
        credMgmtGetCredsMetadata, credMgmtEnumerateRpsBegin, h1]
    · by_cases h2 : subCmd = 0x02
      · simp [signCredentialMgmtCommand, credMgmtSignedMessageSpec,
          credMgmtGetCredsMetadata, credMgmtEnumerateRpsBegin, h1, h2]
      · simp [signCredentialMgmtCommand, credMgmtSignedMessageSpec,
          credMgmtGetCredsMetadata, credMgmtEnumerateRpsBegin, h1, h2]
  · simp [signCredentialMgmtCommand, credMgmtSignedMessageSpec,
      credMgmtEnumerateRpsBegin]
  · simp [credMgmtSignedMessageSpec, credMgmtGetCredsMetadata]
  · simp [credMgmtSignedMessageSpec, credMgmtEnumerateRpsBegin]
  · intro subCmd h1 h2
    simp [credMgmtSignedMessageSpec, h1, h2]
  · intro h
    have hlen := congrArg List.length h
    simp [credMgmtSignedMessageSpec, credMgmtEnumerateCredentialsBegin] at hlen

/-- **C4 witness.**  The signing theorem applied to the
enumerateCredentialsBegin subcommand (0x04) with a one-byte params
encoding: the signed message is `0x04 :: params`. -/
theorem c4_credential_mgmt_signing_witness :
    (0x04 : Nat) ≠ 0x01 ∧ (0x04 : Nat) ≠ 0x02
    ∧ credMgmtSignedMessageSpec 0x04 [0xA1] = 0x04 :: [0xA1]
    ∧ signCredentialMgmtCommand constantHmacCrypto [9] 0x04 (some [0xA1])
        = (constantHmacCrypto.hmacSha256 [9] (credMgmtSignedMessageSpec 0x04 [0xA1])).take 16 :=
  ⟨by decide, by decide,
    (c4_credential_mgmt_signing constantHmacCrypto [9] [0xA1]).2.2.2.2.1 0x04
      (by decide) (by decide),
    (c4_credential_mgmt_signing constantHmacCrypto [9] [0xA1]).1 0x04⟩

/-- **C5** (code bug).  `send_vendor_config` inserts
`Value::Integer(vendor_cmd as i128)` at key 1 of the inner
subCommandParams map.  `VendorConfigCommand` is a field-less enum
without explicit discriminants, so the cast yields the
declaration-order discriminant (7 for PhysicalOptions, 4 for
PhysicalVidPid), not the published 64-bit identifier that
`VendorConfigCommand::to_u64` (used by the GetInfo parser) defines and
that the spec requires.  The parameter placement — bytes at key 2,
integers at key 3, text at key 4 — matches the claim. -/
theorem c5_vendor_config_command_id :
    vendorSubParams .PhysicalOptions (.int 30)
      = .ok [(.int 0x01, .int 7), (.int 0x03, .int 30)]
    ∧ VendorConfigCommand.disc .PhysicalOptions = 7
    ∧ VendorConfigCommand.toU64 .PhysicalOptions = 0x269F3B09ECEB805F
    ∧ (7 : Int) ≠ 0x269F3B09ECEB805F
    ∧ vendorSubParams .PhysicalVidPid (.int 0x12345678)
      = .ok [(.int 0x01, .int 4), (.int 0x03, .int 0x12345678)]
    ∧ VendorConfigCommand.toU64 .PhysicalVidPid = 0x6FCB19B0CBE3ACFA
    ∧ (∀ cmd b, vendorSubParams cmd (.bytes b)
        = .ok [(.int 0x01, .int cmd.disc), (.int 0x02, .bytes b)])
    ∧ (∀ cmd n, vendorSubParams cmd (.int n)
        = .ok [(.int 0x01, .int cmd.disc), (.int 0x03, .int n)])
    ∧ (∀ cmd s, vendorSubParams cmd (.text s)
        = .ok [(.int 0x01, .int cmd.disc), (.int 0x04, .text s)]) :=
  ⟨rfl, rfl, rfl, by decide, rfl, rfl,
    fun _ _ => rfl, fun _ _ => rfl, fun _ _ => rfl⟩

/-- **C7** (confirmed).  `change_pin` computes `newPinEnc` as
AES-256-CBC (shared-secret key, zero IV, no padding) of the new PIN
padded with trailing zeros to 64 bytes, `pinHashEnc` as AES-256-CBC of
`SHA-256(currentPin)` truncated to 16 bytes, `pinUvAuthParam` as
`HMAC-SHA-256(shared, newPinEnc ++ pinHashEnc)` truncated to 16 bytes,
and sends the six-entry ClientPin map `{1:1, 2:4, 3:coseKey,
4:pinUvAuthParam, 5:newPinEnc, 6:pinHashEnc}` with keys in that
ascending order; PINs shorter than 4 UTF-8 bytes or longer than 63 are
rejected before anything is sent. -/
theorem c7_change_pin (C : CryptoPrims) (shared x y cur new : List Nat) :
    (4 ≤ new.length → new.length ≤ 63 →
      changePinPayload C shared x y cur new
        = .ok ([0x06, 0xA6, 0x01, 0x01, 0x02, 0x04, 0x03] ++ encodeCoseKey x y ++
            [0x04] ++ encValue (.bytes ((C.hmacSha256 shared
              ((cbcEncryptBlocks C.aesEncBlock shared (List.replicate 16 0)
                  (chunks16 (new ++ List.replicate (64 - new.length) 0))).flatten ++
                (cbcEncryptBlocks C.aesEncBlock shared (List.replicate 16 0)
                  [(C.sha256 cur).take 16]).flatten)).take 16)) ++
            [0x05] ++ encValue (.bytes
              ((cbcEncryptBlocks C.aesEncBlock shared (List.replicate 16 0)
                (chunks16 (new ++ List.replicate (64 - new.length) 0))).flatten)) ++
            [0x06] ++ encValue (.bytes
              ((cbcEncryptBlocks C.aesEncBlock shared (List.replicate 16 0)
                [(C.sha256 cur).take 16]).flatten))))
    ∧ (new.length < 4 →
        changePinPayload C shared x y cur new
          = .error (.Device ("PIN must be at least 4 characters")))
    ∧ (63 < new.length →
        changePinPayload C shared x y cur new
          = .error (.Device ("PIN must be less than 64 characters"))) := by
  refine ⟨?_, ?_, ?_⟩
  · intro h4 h63
    rw [changePinPayload, if_neg (by omega), if_neg (by omega)]
    simp [cborInt, cborHead, ClientPinParam.PinUvAuthProtocol,
      ClientPinParam.SubCommand, ClientPinParam.KeyAgreement,
      ClientPinParam.PinUvAuthParam, ClientPinParam.NewPinEnc,
      ClientPinParam.PinHashEnc, ClientPinSubCommand.ChangePin,
      CtapCommand.ClientPin]
  · intro h4
    rw [changePinPayload, if_pos h4]
  · intro h63
    rw [changePinPayload, if_neg (by omega), if_pos (by omega)]

/-- **C7 witness.**  The change-pin theorem applied to the four-byte
PINs "1234" → "5678" (UTF-8 bytes) under the constant-primitive
crypto instance. -/
theorem c7_change_pin_witness :
    4 ≤ ([0x35, 0x36, 0x37, 0x38] : List Nat).length
    ∧ ([0x35, 0x36, 0x37, 0x38] : List Nat).length ≤ 63
    ∧ ∃ payload,
        changePinPayload constantHmacCrypto (List.replicate 32 0) [] []
          [0x31, 0x32, 0x33, 0x34] [0x35, 0x36, 0x37, 0x38] = .ok payload :=
  ⟨by decide, by decide,
    ⟨_, (c7_change_pin constantHmacCrypto (List.replicate 32 0) [] []
      [0x31, 0x32, 0x33, 0x34] [0x35, 0x36, 0x37, 0x38]).1 (by decide) (by decide)⟩⟩

/-- Unknown integer keys (everything outside `getInfoUpdateKeys`,
including the silently-skipped 0x10–0x12 and 0x16) leave the parser
state unchanged. -/
theorem getInfoStep_unknown_key (st : GetInfoState) (kn : Int) (v : Value)
    (h : kn ∉ getInfoUpdateKeys) : getInfoStep st (.int kn, v) = st := by
  simp only [getInfoUpdateKeys, List.mem_cons, List.not_mem_nil, or_false, not_or] at h
  obtain ⟨h1, h2, h3, h4, h5, h6, h7, h8, hA, hB, hC, hD, hE, hF, h13, h14, h15⟩ := h
  simp only [getInfoStep]
  rw [if_neg h1, if_neg h2, if_neg h3, if_neg h4, if_neg h5, if_neg h6, if_neg h7,
    if_neg h8, if_neg hA, if_neg hB, if_neg hC, if_neg hD, if_neg hE, if_neg hF,
    if_neg h13, if_neg h14, if_neg h15]

theorem stepVersions_pres (st : GetInfoState) (v : Value) :
    (stepVersions st v).aaguid = st.aaguid ∧
      (stepVersions st v).firmwareVersionRaw = st.firmwareVersionRaw := by
  cases v <;> exact ⟨rfl, rfl⟩

theorem stepExtensions_pres (st : GetInfoState) (v : Value) :
    (stepExtensions st v).aaguid = st.aaguid ∧
      (stepExtensions st v).firmwareVersionRaw = st.firmwareVersionRaw := by
  cases v <;> exact ⟨rfl, rfl⟩

theorem stepAaguid_fw (st : GetInfoState) (v : Value) :
    (stepAaguid st v).firmwareVersionRaw = st.firmwareVersionRaw := by
  cases v <;> rfl

theorem stepOptions_pres (st : GetInfoState) (v : Value) :
    (stepOptions st v).aaguid = st.aaguid ∧
      (stepOptions st v).firmwareVersionRaw = st.firmwareVersionRaw := by
  cases v <;> exact ⟨rfl, rfl⟩

theorem stepMaxMsgSize_pres (st : GetInfoState) (v : Value) :
    (stepMaxMsgSize st v).aaguid = st.aaguid ∧
      (stepMaxMsgSize st v).firmwareVersionRaw = st.firmwareVersionRaw := by
  cases v <;> exact ⟨rfl, rfl⟩

theorem stepPinProtocols_pres (st : GetInfoState) (v : Value) :
    (stepPinProtocols st v).aaguid = st.aaguid ∧
      (stepPinProtocols st v).firmwareVersionRaw = st.firmwareVersionRaw := by
  cases v <;> exact ⟨rfl, rfl⟩

theorem stepMaxCredCount_pres (st : GetInfoState) (v : Value) :
    (stepMaxCredCount st v).aaguid = st.aaguid ∧
      (stepMaxCredCount st v).firmwareVersionRaw = st.firmwareVersionRaw := by
  cases v <;> exact ⟨rfl, rfl⟩

theorem stepMaxCredIdLen_pres (st : GetInfoState) (v : Value) :
    (stepMaxCredIdLen st v).aaguid = st.aaguid ∧
      (stepMaxCredIdLen st v).firmwareVersionRaw = st.firmwareVersionRaw := by
  cases v <;> exact ⟨rfl, rfl⟩

theorem stepAlgorithms_pres (st : GetInfoState) (v : Value) :
    (stepAlgorithms st v).aaguid = st.aaguid ∧
      (stepAlgorithms st v).firmwareVersionRaw = st.firmwareVersionRaw := by
  cases v <;> exact ⟨rfl, rfl⟩

theorem stepMaxLargeBlob_pres (st : GetInfoState) (v : Value) :
    (stepMaxLargeBlob st v).aaguid = st.aaguid ∧
      (stepMaxLargeBlob st v).firmwareVersionRaw = st.firmwareVersionRaw := by
  cases v <;> exact ⟨rfl, rfl⟩

theorem stepForcePinChange_pres (st : GetInfoState) (v : Value) :
    (stepForcePinChange st v).aaguid = st.aaguid ∧
      (stepForcePinChange st v).firmwareVersionRaw = st.firmwareVersionRaw := by
  cases v <;> exact ⟨rfl, rfl⟩

theorem stepMinPinLength_pres (st : GetInfoState) (v : Value) :
    (stepMinPinLength st v).aaguid = st.aaguid ∧
      (stepMinPinLength st v).firmwareVersionRaw = st.firmwareVersionRaw := by
  cases v <;> exact ⟨rfl, rfl⟩

theorem stepFirmwareVersion_aag (st : GetInfoState) (v : Value) :
    (stepFirmwareVersion st v).aaguid = st.aaguid := by
  cases v <;> rfl

theorem stepMaxCredBlobLen_pres (st : GetInfoState) (v : Value) :
    (stepMaxCredBlobLen st v).aaguid = st.aaguid ∧
      (stepMaxCredBlobLen st v).firmwareVersionRaw = st.firmwareVersionRaw := by
  cases v <;> exact ⟨rfl, rfl⟩

theorem stepVendorConfigCmds_pres (st : GetInfoState) (v : Value) :
    (stepVendorConfigCmds st v).aaguid = st.aaguid ∧
      (stepVendorConfigCmds st v).firmwareVersionRaw = st.firmwareVersionRaw := by
  cases v <;> exact ⟨rfl, rfl⟩

theorem stepRemainingCreds_pres (st : GetInfoState) (v : Value) :
    (stepRemainingCreds st v).aaguid = st.aaguid ∧
      (stepRemainingCreds st v).firmwareVersionRaw = st.firmwareVersionRaw := by
  cases v <;> exact ⟨rfl, rfl⟩

theorem stepCertifications_pres (st : GetInfoState) (v : Value) :
    (stepCertifications st v).aaguid = st.aaguid ∧
      (stepCertifications st v).firmwareVersionRaw = st.firmwareVersionRaw := by
  cases v <;> exact ⟨rfl, rfl⟩

theorem getInfoStep_aaguid (st : GetInfoState) (e : Value × Value)
    (h : e.1 ≠ .int 3) : (getInfoStep st e).aaguid = st.aaguid := by
  obtain ⟨k, v⟩ := e
  cases k with
  | int kn =>
    have hk : kn ≠ 3 := fun hkn => h (by rw [hkn])
    simp only [getInfoStep]
    by_cases h0 : kn = 0x1
    · rw [if_pos h0]
      exact (stepVersions_pres st v).1
    rw [if_neg h0]
    by_cases h1 : kn = 0x2
    · rw [if_pos h1]
      exact (stepExtensions_pres st v).1
    rw [if_neg h1]
    rw [if_neg hk]
    by_cases h3 : kn = 0x4
    · rw [if_pos h3]
      exact (stepOptions_pres st v).1
    rw [if_neg h3]
    by_cases h4 : kn = 0x5
    · rw [if_pos h4]
      exact (stepMaxMsgSize_pres st v).1
    rw [if_neg h4]
    by_cases h5 : kn = 0x6
    · rw [if_pos h5]
      exact (stepPinProtocols_pres st v).1
    rw [if_neg h5]
    by_cases h6 : kn = 0x7
    · rw [if_pos h6]
      exact (stepMaxCredCount_pres st v).1
    rw [if_neg h6]
    by_cases h7 : kn = 0x8
    · rw [if_pos h7]
      exact (stepMaxCredIdLen_pres st v).1
    rw [if_neg h7]
    by_cases h8 : kn = 0xa
    · rw [if_pos h8]
      exact (stepAlgorithms_pres st v).1
    rw [if_neg h8]
    by_cases h9 : kn = 0xb
    · rw [if_pos h9]
      exact (stepMaxLargeBlob_pres st v).1
    rw [if_neg h9]
    by_cases h10 : kn = 0xc
    · rw [if_pos h10]
      exact (stepForcePinChange_pres st v).1
    rw [if_neg h10]
    by_cases h11 : kn = 0xd
    · rw [if_pos h11]
      exact (stepMinPinLength_pres st v).1
    rw [if_neg h11]
    by_cases h12 : kn = 0xe
    · rw [if_pos h12]
      exact stepFirmwareVersion_aag st v
    rw [if_neg h12]
    by_cases h13 : kn = 0xf
    · rw [if_pos h13]
      exact (stepMaxCredBlobLen_pres st v).1
    rw [if_neg h13]
    by_cases h14 : kn = 0x13
    · rw [if_pos h14]
      exact (stepVendorConfigCmds_pres st v).1
    rw [if_neg h14]
    by_cases h15 : kn = 0x14
    · rw [if_pos h15]
      exact (stepRemainingCreds_pres st v).1
    rw [if_neg h15]
    by_cases h16 : kn = 0x15
    · rw [if_pos h16]
      exact (stepCertifications_pres st v).1
    rw [if_neg h16]
  | bytes b => rfl
  | text s => rfl
  | bool b => rfl
  | arr l => rfl
  | map m => rfl

theorem getInfoStep_fwRaw (st : GetInfoState) (e : Value × Value)
    (h : e.1 ≠ .int 14) : (getInfoStep st e).firmwareVersionRaw = st.firmwareVersionRaw := by
  obtain ⟨k, v⟩ := e
  cases k with
  | int kn =>
    have hk : kn ≠ 14 := fun hkn => h (by rw [hkn])
    simp only [getInfoStep]
    by_cases h0 : kn = 0x1
    · rw [if_pos h0]
      exact (stepVersions_pres st v).2
    rw [if_neg h0]
    by_cases h1 : kn = 0x2
    · rw [if_pos h1]
      exact (stepExtensions_pres st v).2
    rw [if_neg h1]
    by_cases h2 : kn = 0x3
    · rw [if_pos h2]
      exact stepAaguid_fw st v
    rw [if_neg h2]
    by_cases h3 : kn = 0x4
    · rw [if_pos h3]
      exact (stepOptions_pres st v).2
    rw [if_neg h3]
    by_cases h4 : kn = 0x5
    · rw [if_pos h4]
      exact (stepMaxMsgSize_pres st v).2
    rw [if_neg h4]
    by_cases h5 : kn = 0x6
    · rw [if_pos h5]
      exact (stepPinProtocols_pres st v).2
    rw [if_neg h5]
    by_cases h6 : kn = 0x7
    · rw [if_pos h6]
      exact (stepMaxCredCount_pres st v).2
    rw [if_neg h6]
    by_cases h7 : kn = 0x8
    · rw [if_pos h7]
      exact (stepMaxCredIdLen_pres st v).2
    rw [if_neg h7]
    by_cases h8 : kn = 0xa
    · rw [if_pos h8]
      exact (stepAlgorithms_pres st v).2
    rw [if_neg h8]
    by_cases h9 : kn = 0xb
    · rw [if_pos h9]
      exact (stepMaxLargeBlob_pres st v).2
    rw [if_neg h9]
    by_cases h10 : kn = 0xc
    · rw [if_pos h10]
      exact (stepForcePinChange_pres st v).2
    rw [if_neg h10]
    by_cases h11 : kn = 0xd
    · rw [if_pos h11]
      exact (stepMinPinLength_pres st v).2
    rw [if_neg h11]
    rw [if_neg hk]
    by_cases h13 : kn = 0xf
    · rw [if_pos h13]
      exact (stepMaxCredBlobLen_pres st v).2
    rw [if_neg h13]
    by_cases h14 : kn = 0x13
    · rw [if_pos h14]
      exact (stepVendorConfigCmds_pres st v).2
    rw [if_neg h14]
    by_cases h15 : kn = 0x14
    · rw [if_pos h15]
      exact (stepRemainingCreds_pres st v).2
    rw [if_neg h15]
    by_cases h16 : kn = 0x15
    · rw [if_pos h16]
      exact (stepCertifications_pres st v).2
    rw [if_neg h16]
  | bytes b => rfl
  | text s => rfl
  | bool b => rfl
  | arr l => rfl
  | map m => rfl

theorem foldl_getInfoStep_aaguid (entries : List (Value × Value)) :
    ∀ st, (∀ e ∈ entries, e.1 ≠ Value.int 3) →
      (entries.foldl getInfoStep st).aaguid = st.aaguid := by
  induction entries with
  | nil => intro st _; rfl
  | cons e rest ih =>
    intro st h
    rw [List.foldl_cons, ih _ (fun r hr => h r (List.mem_cons_of_mem _ hr)),
      getInfoStep_aaguid st e (h e (List.mem_cons_self _ _))]

theorem foldl_getInfoStep_fwRaw (entries : List (Value × Value)) :
    ∀ st, (∀ e ∈ entries, e.1 ≠ Value.int 0x0E) →
      (entries.foldl getInfoStep st).firmwareVersionRaw = st.firmwareVersionRaw := by
  induction entries with
  | nil => intro st _; rfl
  | cons e rest ih =>
    intro st h
    rw [List.foldl_cons, ih _ (fun r hr => h r (List.mem_cons_of_mem _ hr)),
      getInfoStep_fwRaw st e (h e (List.mem_cons_self _ _))]

/-- **C9** (corrected).  Both GetInfo parsers succeed on every map
response and skip unknown and non-integer keys without failing.  A
response missing key 0x03 yields AAGUID "Unknown" in both parsers.  A
response missing key 0x0E yields the firmware-version string
"Unknown" in `read_device_info`, but `get_fido_info` formats the
default raw value 0 as "0.0" — the claim's "Unknown" fails there (see
the counterexample). -/
theorem c9_getinfo_graceful_defaults :
    (∀ entries, getFidoInfo (.map entries) = .ok (getFidoInfoOfMap entries))
    ∧ (∀ entries, (∀ e ∈ entries, e.1 ≠ Value.int 0x03) →
        (getFidoInfoOfMap entries).aaguid = "Unknown")
    ∧ (∀ entries, (∀ e ∈ entries, e.1 ≠ Value.int 0x0E) →
        (getFidoInfoOfMap entries).firmwareVersion = "0.0")
    ∧ fwString 0 = "0.0"
    ∧ (∀ entries, lookupV entries (.int 0x03) = none →
        (readDeviceInfo (.map entries)).1 = "Unknown")
    ∧ (∀ entries, lookupV entries (.int 0x0E) = none →
        (readDeviceInfo (.map entries)).2 = "Unknown")
    ∧ (∀ st kn v, kn ∉ getInfoUpdateKeys → getInfoStep st (.int kn, v) = st)
    ∧ (∀ st kv, (∀ kn, kv.1 ≠ Value.int kn) → getInfoStep st kv = st) := by
  refine ⟨fun _ => rfl, ?_, ?_, rfl, ?_, ?_, getInfoStep_unknown_key, ?_⟩
  · intro entries h
    show (entries.foldl getInfoStep initGetInfoState).aaguid = "Unknown"
    rw [foldl_getInfoStep_aaguid entries initGetInfoState h]
    rfl
  · intro entries h
    show fwString (entries.foldl getInfoStep initGetInfoState).firmwareVersionRaw = "0.0"
    rw [foldl_getInfoStep_fwRaw entries initGetInfoState h]
    rfl
  · intro entries h
    simp [readDeviceInfo, h]
  · intro entries h
    simp [readDeviceInfo, h]
  · intro st kv h
    obtain ⟨k, v⟩ := kv
    cases k with
    | int kn => exact absurd rfl (h kn)
    | bytes b => rfl
    | text s => rfl
    | bool b => rfl
    | arr l => rfl
    | map m => rfl

/-- **C9 counterexample.**  On the empty GetInfo map (key 0x0E
missing) `get_fido_info` reports firmware version "0.0", not
"Unknown". -/
theorem c9_getinfo_graceful_defaults_cex :
    lookupV ([] : List (Value × Value)) (.int 0x0E) = none
    ∧ (getFidoInfoOfMap []).firmwareVersion = "0.0"
    ∧ "0.0" ≠ "Unknown" :=
  ⟨rfl, rfl, by decide⟩

/-- **C9 witness.**  The graceful-default theorem applied to the empty
map: AAGUID falls back to "Unknown" in `get_fido_info`, and both
fields fall back to "Unknown" in `read_device_info`. -/
theorem c9_getinfo_graceful_defaults_witness :
    (getFidoInfoOfMap []).aaguid = "Unknown"
    ∧ (readDeviceInfo (.map [])).1 = "Unknown"
    ∧ (readDeviceInfo (.map [])).2 = "Unknown" :=
  ⟨c9_getinfo_graceful_defaults.2.1 [] (fun e he => absurd he (List.not_mem_nil e)),
    c9_getinfo_graceful_defaults.2.2.2.2.1 [] rfl,
    c9_getinfo_graceful_defaults.2.2.2.2.2.1 [] rfl⟩

/-- While records are still needed and every scripted GetNextRp reply
is well formed, the loop issues one subcommand-0x03 request per reply
and accumulates one record per reply. -/
theorem enumRpsNextLoop_all_ok (target : Nat) (total : Option Nat) :
    ∀ (scripts : List (Except PFError Value)) (acc : List EnumerateRpResponse),
      (∀ s ∈ scripts, wellFormedRpReply s) →
      acc.length + scripts.length = target →
      (enumRpsNextLoop target total acc scripts).1
          = List.replicate scripts.length enumerateRpsNextRequest
        ∧ ∃ res, (enumRpsNextLoop target total acc scripts).2 = .ok res
            ∧ res.length = target := by
  intro scripts
  induction scripts with
  | nil =>
    intro acc _ hlen
    simp only [List.length_nil, Nat.add_zero] at hlen
    simp [enumRpsNextLoop, hlen]
  | cons s rest ih =>
    intro acc hwf hlen
    have hneed : acc.length < target := by
      simp only [List.length_cons] at hlen
      omega
    obtain ⟨m, rp, h, hs, hrp, hh⟩ := hwf s (List.mem_cons_self s rest)
    subst hs
    simp only [enumRpsNextLoop, if_pos hneed, hrp, hh]
    have hrest := ih (acc ++ [⟨rp, h, total⟩])
      (fun r hr => hwf r (List.mem_cons_of_mem _ hr))
      (by simp at hlen ⊢; omega)
    simp only [List.length_cons, List.replicate_succ]
    exact ⟨by rw [hrest.1], hrest.2⟩

/-- **C6** (confirmed).  When the EnumerateRpsBegin response is a map
with `rp`, `rpIdHash` and `totalRps = n` (`1 ≤ n`, representable in a
CBOR unsigned integer) and the device scripts exactly `n - 1`
well-formed GetNextRp replies, the enumeration issues exactly one
subcommand-0x02 request followed by exactly `n - 1` subcommand-0x03
requests and returns exactly `n` records; and when the
EnumerateRpsBegin request fails with device status 0x2E, the result is
the empty list after the single begin request. -/
theorem c6_enumerate_rps_pagination (C : CryptoPrims) (tok : List Nat) :
    (∀ (m : List (Value × Value)) (rp : Value) (hsh : List Nat) (t : Int)
        (nexts : List (Except PFError Value)),
      lookupV m (.int (credMgmtRespRp : Int)) = some rp →
      lookupV m (.int (credMgmtRespRpIdHash : Int)) = some (.bytes hsh) →
      lookupV m (.int (credMgmtRespTotalRps : Int)) = some (.int t) →
      1 ≤ t → t < 2 ^ 64 →
      (∀ s ∈ nexts, wellFormedRpReply s) →
      nexts.length + 1 = t.toNat →
      (credentialManagementEnumerateRps C tok (.ok (.map m)) nexts).1
          = enumerateRpsBeginRequest C tok ::
              List.replicate (t.toNat - 1) enumerateRpsNextRequest
        ∧ ∃ res, (credentialManagementEnumerateRps C tok (.ok (.map m)) nexts).2 = .ok res
            ∧ res.length = t.toNat)
    ∧ (∀ nexts, credentialManagementEnumerateRps C tok
          (.error (.Device (statusMsg 0x2E))) nexts
        = ([enumerateRpsBeginRequest C tok], .ok [])) := by
  constructor
  · intro m rp hsh t nexts hrp hh ht h1 h64 hwf hlen
    have htot : usizeOfI128 t = t.toNat := by
      rw [usizeOfI128, Int.emod_eq_of_lt (by omega) (by omega)]
    have hloop := enumRpsNextLoop_all_ok t.toNat (some t.toNat) nexts
      [⟨rp, hsh, some t.toNat⟩] hwf (by simp; omega)
    have hrepl : nexts.length = t.toNat - 1 := by omega
    simp only [credentialManagementEnumerateRps, hrp, hh, ht, htot, Option.getD_some]
    rw [← hrepl]
    exact ⟨by rw [hloop.1], hloop.2⟩
  · intro nexts
    have h2e : errContains2E (.Device (statusMsg 0x2E)) = true := by decide
    simp [credentialManagementEnumerateRps, h2e]

/-- **C6 witness.**  A begin response with `totalRps = 2` and one
well-formed GetNextRp reply: exactly one 0x02 request and one 0x03
request are issued. -/
theorem c6_enumerate_rps_pagination_witness :
    lookupV [((.int 3 : Value), (.map [] : Value)), (.int 4, .bytes [0xAB]), (.int 5, .int 2)]
        (.int (credMgmtRespTotalRps : Int)) = some (.int 2)
    ∧ (credentialManagementEnumerateRps constantHmacCrypto [1]
        (.ok (.map [((.int 3 : Value), (.map [] : Value)), (.int 4, .bytes [0xAB]),
          (.int 5, .int 2)]))
        [.ok (.map [((.int 3 : Value), (.map [] : Value)), (.int 4, .bytes [0xCD])])]).1
      = enumerateRpsBeginRequest constantHmacCrypto [1] ::
          List.replicate ((2 : Int).toNat - 1) enumerateRpsNextRequest :=
  ⟨rfl,
    ((c6_enumerate_rps_pagination constantHmacCrypto [1]).1
      [((.int 3 : Value), (.map [] : Value)), (.int 4, .bytes [0xAB]), (.int 5, .int 2)]
      (.map []) [0xAB] 2
      [.ok (.map [((.int 3 : Value), (.map [] : Value)), (.int 4, .bytes [0xCD])])]
      rfl rfl rfl (by decide) (by decide)
      (fun s hs => by
        simp only [List.mem_singleton] at hs
        subst hs
        exact ⟨[((.int 3 : Value), (.map [] : Value)), (.int 4, .bytes [0xCD])],
          .map [], [0xCD], rfl, rfl, rfl⟩)
      rfl).1⟩

/-- **C10** (confirmed).  When the EnumerateRpsBegin response is a map
with `rp` and `rpIdHash` entries but no `totalRps` entry, the
enumeration returns exactly that one record and issues no
EnumerateRpsGetNextRp (0x03) request, whatever further replies the
device could give. -/
theorem c10_enumerate_rps_no_total (C : CryptoPrims) (tok : List Nat)
    (m : List (Value × Value)) (rp : Value) (hsh : List Nat)
    (nexts : List (Except PFError Value))
    (hrp : lookupV m (.int (credMgmtRespRp : Int)) = some rp)
    (hh : lookupV m (.int (credMgmtRespRpIdHash : Int)) = some (.bytes hsh))
    (ht : lookupV m (.int (credMgmtRespTotalRps : Int)) = none) :
    credentialManagementEnumerateRps C tok (.ok (.map m)) nexts
      = ([enumerateRpsBeginRequest C tok], .ok [⟨rp, hsh, none⟩]) := by
  cases nexts with
  | nil => simp [credentialManagementEnumerateRps, enumRpsNextLoop, hrp, hh, ht]
  | cons s rest => simp [credentialManagementEnumerateRps, enumRpsNextLoop, hrp, hh, ht]

/-- **C10 witness.**  A begin response without `totalRps`, with one
more scripted reply available: the single record is returned and the
scripted reply is never requested. -/
theorem c10_enumerate_rps_no_total_witness :
    lookupV [((.int 3 : Value), (.map [] : Value)), (.int 4, .bytes [0xAB])]
        (.int (credMgmtRespTotalRps : Int)) = none
    ∧ credentialManagementEnumerateRps constantHmacCrypto [1]
        (.ok (.map [((.int 3 : Value), (.map [] : Value)), (.int 4, .bytes [0xAB])]))
        [.ok (.bool true)]
      = ([enumerateRpsBeginRequest constantHmacCrypto [1]], .ok [⟨.map [], [0xAB], none⟩]) :=
  ⟨rfl,
    c10_enumerate_rps_no_total constantHmacCrypto [1]
      [((.int 3 : Value), (.map [] : Value)), (.int 4, .bytes [0xAB])]
      (.map []) [0xAB] [.ok (.bool true)] rfl rfl rfl⟩

end PicoForge
